import Mathlib

/-!
Verification of the XATSimplified metric pipeline.

The development shallowly embeds the Python source of the repository:

* `collectors/services/cubing.py` (the `CubingService` delta-normalization
  engine) as pure functions over `ℚ`;
* the subsystem text parsers and trickle-ingestion pipeline of
  `collectors/api/views.py` (`TrickleView`) over `List Char` text;
* the `TrickleSession` lifecycle of `collectors/api/views.py` and
  `collectors/api/dashboard_views.py` as a small transition system.

Python `float` arithmetic is embedded as exact rational arithmetic, and
Python's `round`/`int` conversions are modelled exactly
(`pyRound`, `pyTrunc`).  Database rows are embedded as association lists.
-/

namespace XAT

/-- Round-half-to-even on a rational, the semantics of Python's built-in
`round()` on exact values (ties go to the even integer). -/
def pyRoundInt (x : ℚ) : ℤ :=
  let f : ℤ := ⌊x⌋
  let r : ℚ := x - f
  if r < 1/2 then f
  else if 1/2 < r then f + 1
  else if f % 2 = 0 then f else f + 1

/-- Python `round(x, n)`: round half to even at the `n`-th decimal place. -/
def pyRound (x : ℚ) (n : ℕ) : ℚ :=
  (pyRoundInt (x * 10 ^ n) : ℚ) / 10 ^ n

/-- Python `int()` applied to a float: truncation toward zero. -/
def pyTrunc (x : ℚ) : ℤ :=
  if 0 ≤ x then ⌊x⌋ else -⌊-x⌋

/-! ## The cubing engine, from `collectors/services/cubing.py` -/

namespace CubingService

/-- `CubingService.USER_HZ`: jiffies per second. -/
def USER_HZ : ℚ := 100

/-- `CubingService.svalue(prev, curr, tvi)`:
`(curr - prev) / tvi * 100`, or `0.0` when `tvi == 0`. -/
def svalue (prev curr : ℚ) (tvi : ℤ) : ℚ :=
  if tvi = 0 then 0 else (curr - prev) / (tvi : ℚ) * 100

/-- `CubingService._get_all_busy(jiffies)`: returns `(total, busy)` where
`busy = user+nice+system+iowait+irq+softirq+steal` and `total = busy+idle`.
The Python code indexes `jiffies[0..7]`; out-of-range indices are modelled
by `getD _ 0`, which agrees with the source on every list of length ≥ 8
(the only lists on which the callers invoke it). -/
def get_all_busy (jiffies : List ℚ) : ℚ × ℚ :=
  let user := jiffies.getD 0 0
  let nice := jiffies.getD 1 0
  let system := jiffies.getD 2 0
  let idle := jiffies.getD 3 0
  let iowait := jiffies.getD 4 0
  let irq := jiffies.getD 5 0
  let softirq := jiffies.getD 6 0
  let steal := jiffies.getD 7 0
  let busy := user + nice + system + iowait + irq + softirq + steal
  (busy + idle, busy)

/-- `CubingService._calculate_component(prev, curr, i)`: percentage of one
jiffies component, with the edge-case cascade of the source
(`curr_busy <= prev_busy → 0`, then `curr_total <= prev_total → 100`,
then clamp to `[0, 100]`). -/
def calculate_component (prev_jiffies curr_jiffies : List ℚ)
    (component_index : ℕ) : ℚ :=
  let pa := get_all_busy prev_jiffies
  let ca := get_all_busy curr_jiffies
  if ca.2 ≤ pa.2 then 0
  else if ca.1 ≤ pa.1 then 100
  else
    let delta_total := ca.1 - pa.1
    let delta_component :=
      curr_jiffies.getD component_index 0 - prev_jiffies.getD component_index 0
    min 100 (max 0 (delta_component / delta_total * 100))

/-- Result dict of `CubingService.cube_cpu`. -/
structure CpuCube where
  cpu_user : ℚ
  cpu_system : ℚ
  cpu_iowait : ℚ
  cpu_steal : ℚ
  cpu_idle : ℚ
deriving DecidableEq, Repr

/-- `CubingService.cube_cpu(prev_jiffies, curr_jiffies)`. -/
def cube_cpu (prev_jiffies curr_jiffies : List ℚ) : Option CpuCube :=
  if prev_jiffies.length < 8 ∨ curr_jiffies.length < 8 then none
  else
    let user := calculate_component prev_jiffies curr_jiffies 0
    let nice := calculate_component prev_jiffies curr_jiffies 1
    let system := calculate_component prev_jiffies curr_jiffies 2
    let iowait := calculate_component prev_jiffies curr_jiffies 4
    let steal := calculate_component prev_jiffies curr_jiffies 7
    let pa := get_all_busy prev_jiffies
    let ca := get_all_busy curr_jiffies
    let busy : ℚ :=
      if ca.2 ≤ pa.2 then 0
      else if ca.1 ≤ pa.1 then 100
      else min 100 (max 0 ((ca.2 - pa.2) / (ca.1 - pa.1) * 100))
    let idle := 100 - busy
    some { cpu_user := pyRound (user + nice) 2
           cpu_system := pyRound system 2
           cpu_iowait := pyRound iowait 2
           cpu_steal := pyRound steal 2
           cpu_idle := pyRound idle 2 }

/-- Argument dict of `CubingService.cube_disk`. -/
structure DiskStats where
  read_ops : ℚ
  write_ops : ℚ
  read_bytes : ℚ
  write_bytes : ℚ
deriving DecidableEq, Repr

/-- Result dict of `CubingService.cube_disk`. -/
structure DiskCube where
  disk_read_iops : ℚ
  disk_write_iops : ℚ
  disk_read_mbps : ℚ
  disk_write_mbps : ℚ
deriving DecidableEq, Repr

/-- `CubingService.cube_disk(prev_stats, curr_stats, interval_seconds)`. -/
def cube_disk (prev_stats curr_stats : DiskStats) (interval_seconds : ℚ) :
    Option DiskCube :=
  if interval_seconds ≤ 0 then none
  else
    let tvi : ℤ := pyTrunc (interval_seconds * USER_HZ)
    if tvi = 0 then none
    else
      let read_iops := svalue prev_stats.read_ops curr_stats.read_ops tvi
      let write_iops := svalue prev_stats.write_ops curr_stats.write_ops tvi
      let read_bytes_per_sec := svalue prev_stats.read_bytes curr_stats.read_bytes tvi
      let write_bytes_per_sec := svalue prev_stats.write_bytes curr_stats.write_bytes tvi
      let read_mbps := read_bytes_per_sec / (1024 * 1024)
      let write_mbps := write_bytes_per_sec / (1024 * 1024)
      let read_iops := if read_iops < 0 then 0 else read_iops
      let write_iops := if write_iops < 0 then 0 else write_iops
      let read_mbps := if read_mbps < 0 then 0 else read_mbps
      let write_mbps := if write_mbps < 0 then 0 else write_mbps
      some { disk_read_iops := pyRound read_iops 2
             disk_write_iops := pyRound write_iops 2
             disk_read_mbps := pyRound read_mbps 4
             disk_write_mbps := pyRound write_mbps 4 }

/-- Argument dict of `CubingService.cube_network`. -/
structure NetStats where
  rx_bytes : ℚ
  tx_bytes : ℚ
  rx_packets : ℚ
  tx_packets : ℚ
deriving DecidableEq, Repr

/-- Result dict of `CubingService.cube_network`. -/
structure NetCube where
  net_rx_mbps : ℚ
  net_tx_mbps : ℚ
  net_rx_pps : ℚ
  net_tx_pps : ℚ
deriving DecidableEq, Repr

/-- `CubingService.cube_network(prev_stats, curr_stats, interval_seconds)`. -/
def cube_network (prev_stats curr_stats : NetStats) (interval_seconds : ℚ) :
    Option NetCube :=
  if interval_seconds ≤ 0 then none
  else
    let tvi : ℤ := pyTrunc (interval_seconds * USER_HZ)
    if tvi = 0 then none
    else
      let rx_bytes_per_sec := svalue prev_stats.rx_bytes curr_stats.rx_bytes tvi
      let tx_bytes_per_sec := svalue prev_stats.tx_bytes curr_stats.tx_bytes tvi
      let rx_pps := svalue prev_stats.rx_packets curr_stats.rx_packets tvi
      let tx_pps := svalue prev_stats.tx_packets curr_stats.tx_packets tvi
      let rx_mbps := rx_bytes_per_sec * 8 / (1000 * 1000)
      let tx_mbps := tx_bytes_per_sec * 8 / (1000 * 1000)
      let rx_mbps := if rx_mbps < 0 then 0 else rx_mbps
      let tx_mbps := if tx_mbps < 0 then 0 else tx_mbps
      let rx_pps := if rx_pps < 0 then 0 else rx_pps
      let tx_pps := if tx_pps < 0 then 0 else tx_pps
      some { net_rx_mbps := pyRound rx_mbps 4
             net_tx_mbps := pyRound tx_mbps 4
             net_rx_pps := pyRound rx_pps 2
             net_tx_pps := pyRound tx_pps 2 }

/-- Argument dict of `CubingService.cube_memory` (missing dict keys default
to `0` in the source; the claims all supply every key). -/
structure Meminfo where
  mem_total : ℚ
  mem_free : ℚ
  mem_buffers : ℚ
  mem_cached : ℚ
  mem_slab : ℚ
  mem_available : ℚ
deriving DecidableEq, Repr

/-- Result dict of `CubingService.cube_memory`. -/
structure MemCube where
  mem_total : ℚ
  mem_used : ℚ
  mem_available : ℚ
  mem_buffers : ℚ
  mem_cached : ℚ
deriving DecidableEq, Repr

/-- `CubingService.cube_memory(meminfo)`. -/
def cube_memory (meminfo : Meminfo) : Option MemCube :=
  if meminfo.mem_total ≤ 0 then none
  else
    let nousedmem :=
      meminfo.mem_free + meminfo.mem_buffers + meminfo.mem_cached + meminfo.mem_slab
    let nousedmem := if meminfo.mem_total < nousedmem then meminfo.mem_total else nousedmem
    let mem_used := meminfo.mem_total - nousedmem
    some { mem_total := pyRound meminfo.mem_total 2
           mem_used := pyRound mem_used 2
           mem_available := pyRound meminfo.mem_available 2
           mem_buffers := pyRound meminfo.mem_buffers 2
           mem_cached := pyRound meminfo.mem_cached 2 }

end CubingService

end XAT

/-! ## Helper lemmas about the Python primitives -/

namespace XAT

theorem pyRoundInt_sub_abs_le (x : ℚ) : |(pyRoundInt x : ℚ) - x| ≤ 1/2 := by
  have h0 : (0:ℚ) ≤ x - ⌊x⌋ := by have := Int.floor_le x; linarith
  have h1 : x - ⌊x⌋ < 1 := by have := Int.lt_floor_add_one x; linarith
  unfold pyRoundInt
  dsimp only
  split_ifs <;> push_cast <;> rw [abs_le] <;> constructor <;> linarith

theorem pyRound_sub_abs_le (x : ℚ) (n : ℕ) :
    |pyRound x n - x| ≤ 1 / (2 * 10 ^ n) := by
  have hp : (0:ℚ) < 10 ^ n := by positivity
  have h := pyRoundInt_sub_abs_le (x * 10 ^ n)
  unfold pyRound
  have hx : (pyRoundInt (x * 10 ^ n) : ℚ) / 10 ^ n - x
      = ((pyRoundInt (x * 10 ^ n) : ℚ) - x * 10 ^ n) / 10 ^ n := by
    field_simp
    ring
  rw [hx, abs_div, abs_of_pos hp, div_le_div_iff₀ hp (by positivity)]
  nlinarith [abs_nonneg ((pyRoundInt (x * 10 ^ n) : ℚ) - x * 10 ^ n)]

theorem pyRoundInt_nonneg (x : ℚ) (hx : 0 ≤ x) : 0 ≤ pyRoundInt x := by
  have h0 : (0:ℤ) ≤ ⌊x⌋ := Int.floor_nonneg.mpr hx
  unfold pyRoundInt
  dsimp only
  split_ifs <;> omega

theorem pyRound_nonneg (x : ℚ) (n : ℕ) (hx : 0 ≤ x) : 0 ≤ pyRound x n := by
  have := pyRoundInt_nonneg (x * 10 ^ n) (by positivity)
  unfold pyRound
  positivity

namespace CubingService

/-- The spec's per-component CPU cascade: `0` when the busy delta is
nonpositive, `100` when the total delta is nonpositive (wraparound), else
the component delta over the total delta times 100, clamped to `[0, 100]`.
This is the formula §4.2 of the spec assigns to every CPU percentage. -/
def specCpuPct (dComponent dBusy dTotal : ℚ) : ℚ :=
  if dBusy ≤ 0 then 0
  else if dTotal ≤ 0 then 100
  else min 100 (max 0 (dComponent / dTotal * 100))

theorem cube_cpu_cons (a0 a1 a2 a3 a4 a5 a6 a7 b0 b1 b2 b3 b4 b5 b6 b7 : ℚ)
    (r1 r2 : List ℚ) :
    cube_cpu (a0::a1::a2::a3::a4::a5::a6::a7::r1) (b0::b1::b2::b3::b4::b5::b6::b7::r2) =
      (let dB : ℚ := (b0+b1+b2+b4+b5+b6+b7) - (a0+a1+a2+a4+a5+a6+a7)
       let dT : ℚ := ((b0+b1+b2+b4+b5+b6+b7) + b3) - ((a0+a1+a2+a4+a5+a6+a7) + a3)
       some { cpu_user := pyRound (specCpuPct (b0-a0) dB dT + specCpuPct (b1-a1) dB dT) 2
              cpu_system := pyRound (specCpuPct (b2-a2) dB dT) 2
              cpu_iowait := pyRound (specCpuPct (b4-a4) dB dT) 2
              cpu_steal := pyRound (specCpuPct (b7-a7) dB dT) 2
              cpu_idle := pyRound (100 - specCpuPct dB dB dT) 2 }) := by
  simp only [cube_cpu, calculate_component, get_all_busy, specCpuPct,
    List.getD_cons_zero, List.getD_cons_succ, List.length_cons]
  rw [if_neg (by omega)]
  simp only [Option.some.injEq, CpuCube.mk.injEq]
  refine ⟨?_, ?_, ?_, ?_, ?_⟩ <;> congr 1 <;> split_ifs <;> first
    | rfl
    | linarith

theorem specCpuPct_eq_of_bounds (d dB dT : ℚ) (hdB : 0 < dB) (hdT : dB ≤ dT)
    (hd0 : 0 ≤ d) (hdd : d ≤ dT) :
    specCpuPct d dB dT = d / dT * 100 := by
  have hT : 0 < dT := lt_of_lt_of_le hdB hdT
  unfold specCpuPct
  rw [if_neg (by linarith), if_neg (by linarith),
    max_eq_right (by positivity), min_eq_right ?hle]
  rw [div_mul_eq_mul_div, div_le_iff₀ hT]
  nlinarith

theorem closure_bound (x0 x1 x2 x4 x7 dB dT : ℚ)
    (hsum : x0 + x1 + x2 + x4 + x7 = dB) (hB : 0 < dB) (hBT : dB ≤ dT)
    (hx0 : 0 ≤ x0) (hx1 : 0 ≤ x1) (hx2 : 0 ≤ x2) (hx4 : 0 ≤ x4) (hx7 : 0 ≤ x7) :
    |pyRound (specCpuPct x0 dB dT + specCpuPct x1 dB dT) 2
      + pyRound (specCpuPct x2 dB dT) 2 + pyRound (specCpuPct x4 dB dT) 2
      + pyRound (specCpuPct x7 dB dT) 2
      + pyRound (100 - specCpuPct dB dB dT) 2 - 100| ≤ 1/40 := by
  subst hsum
  have hT : 0 < dT := lt_of_lt_of_le hB hBT
  have e0 := specCpuPct_eq_of_bounds x0 _ dT hB hBT hx0 (by linarith)
  have e1 := specCpuPct_eq_of_bounds x1 _ dT hB hBT hx1 (by linarith)
  have e2 := specCpuPct_eq_of_bounds x2 _ dT hB hBT hx2 (by linarith)
  have e4 := specCpuPct_eq_of_bounds x4 _ dT hB hBT hx4 (by linarith)
  have e7 := specCpuPct_eq_of_bounds x7 _ dT hB hBT hx7 (by linarith)
  have eB := specCpuPct_eq_of_bounds (x0 + x1 + x2 + x4 + x7) _ dT hB hBT
    (le_of_lt hB) hBT
  rw [e0, e1, e2, e4, e7, eB]
  have key : (x0 / dT * 100 + x1 / dT * 100) + x2 / dT * 100 + x4 / dT * 100
      + x7 / dT * 100 + (100 - (x0 + x1 + x2 + x4 + x7) / dT * 100) = 100 := by
    field_simp
    ring
  have w1 := pyRound_sub_abs_le (x0 / dT * 100 + x1 / dT * 100) 2
  have w2 := pyRound_sub_abs_le (x2 / dT * 100) 2
  have w3 := pyRound_sub_abs_le (x4 / dT * 100) 2
  have w4 := pyRound_sub_abs_le (x7 / dT * 100) 2
  have w5 := pyRound_sub_abs_le (100 - (x0 + x1 + x2 + x4 + x7) / dT * 100) 2
  rw [abs_le] at w1 w2 w3 w4 w5 ⊢
  norm_num at w1 w2 w3 w4 w5 ⊢
  constructor <;> linarith

theorem ite_neg_zero_eq_max (y : ℚ) : (if y < 0 then (0:ℚ) else y) = max 0 y := by
  rw [max_def]
  split_ifs <;> first | rfl | linarith

theorem cube_disk_elim (p c : DiskStats) (t : ℚ) (r : DiskCube)
    (hr : cube_disk p c t = some r) :
    ¬ t ≤ 0 ∧ pyTrunc (t * 100) ≠ 0 ∧
      r.disk_read_iops
        = pyRound (max 0 ((c.read_ops - p.read_ops) / (pyTrunc (t * 100) : ℚ) * 100)) 2 ∧
      r.disk_write_iops
        = pyRound (max 0 ((c.write_ops - p.write_ops) / (pyTrunc (t * 100) : ℚ) * 100)) 2 ∧
      r.disk_read_mbps
        = pyRound (max 0 ((c.read_bytes - p.read_bytes) / (pyTrunc (t * 100) : ℚ) * 100
            / (1024 * 1024))) 4 ∧
      r.disk_write_mbps
        = pyRound (max 0 ((c.write_bytes - p.write_bytes) / (pyTrunc (t * 100) : ℚ) * 100
            / (1024 * 1024))) 4 := by
  rw [cube_disk] at hr
  by_cases h1 : t ≤ 0
  · rw [if_pos h1] at hr; cases hr
  rw [if_neg h1] at hr
  by_cases h2 : pyTrunc (t * USER_HZ) = 0
  · rw [if_pos h2] at hr; cases hr
  rw [if_neg h2] at hr
  have h2' : pyTrunc (t * 100) ≠ 0 := by simpa [USER_HZ] using h2
  injection hr with hr
  subst hr
  refine ⟨h1, h2', ?_, ?_, ?_, ?_⟩ <;>
    simp only [svalue, USER_HZ, if_neg h2', ite_neg_zero_eq_max]

theorem cube_network_elim (p c : NetStats) (t : ℚ) (r : NetCube)
    (hr : cube_network p c t = some r) :
    ¬ t ≤ 0 ∧ pyTrunc (t * 100) ≠ 0 ∧
      r.net_rx_mbps
        = pyRound (max 0 ((c.rx_bytes - p.rx_bytes) / (pyTrunc (t * 100) : ℚ) * 100
            * 8 / (1000 * 1000))) 4 ∧
      r.net_tx_mbps
        = pyRound (max 0 ((c.tx_bytes - p.tx_bytes) / (pyTrunc (t * 100) : ℚ) * 100
            * 8 / (1000 * 1000))) 4 ∧
      r.net_rx_pps
        = pyRound (max 0 ((c.rx_packets - p.rx_packets) / (pyTrunc (t * 100) : ℚ) * 100)) 2 ∧
      r.net_tx_pps
        = pyRound (max 0 ((c.tx_packets - p.tx_packets) / (pyTrunc (t * 100) : ℚ) * 100)) 2 := by
  rw [cube_network] at hr
  by_cases h1 : t ≤ 0
  · rw [if_pos h1] at hr; cases hr
  rw [if_neg h1] at hr
  by_cases h2 : pyTrunc (t * USER_HZ) = 0
  · rw [if_pos h2] at hr; cases hr
  rw [if_neg h2] at hr
  have h2' : pyTrunc (t * 100) ≠ 0 := by simpa [USER_HZ] using h2
  injection hr with hr
  subst hr
  refine ⟨h1, h2', ?_, ?_, ?_, ?_⟩ <;>
    simp only [svalue, USER_HZ, if_neg h2', ite_neg_zero_eq_max]

theorem ite_lt_eq_min (a b : ℚ) : (if b < a then b else a) = min a b := by
  rw [min_def]
  split_ifs <;> first | rfl | linarith

theorem cube_memory_elim (m : Meminfo) (r : MemCube)
    (hr : cube_memory m = some r) :
    ¬ m.mem_total ≤ 0 ∧
      r.mem_total = pyRound m.mem_total 2 ∧
      r.mem_used = pyRound (m.mem_total
        - min (m.mem_free + m.mem_buffers + m.mem_cached + m.mem_slab) m.mem_total) 2 ∧
      r.mem_available = pyRound m.mem_available 2 ∧
      r.mem_buffers = pyRound m.mem_buffers 2 ∧
      r.mem_cached = pyRound m.mem_cached 2 := by
  rw [cube_memory] at hr
  by_cases h1 : m.mem_total ≤ 0
  · rw [if_pos h1] at hr; cases hr
  rw [if_neg h1] at hr
  injection hr with hr
  subst hr
  refine ⟨h1, rfl, ?_, rfl, rfl, rfl⟩
  simp only [ite_lt_eq_min]

end CubingService

end XAT

/-! ## Concrete-scenario evaluations (shared by claims and witnesses) -/

namespace XAT
namespace CubingService

theorem cube_cpu_scenarioA :
    cube_cpu [100000, 0, 50000, 800000, 5000, 1000, 2000, 0]
      [100080, 0, 50020, 800890, 5005, 1000, 2005, 0]
      = some ⟨8, 2, 1/2, 0, 89⟩ := by
  norm_num [cube_cpu, calculate_component, get_all_busy, pyRound, pyRoundInt,
    min_def, max_def]

theorem cube_disk_scenarioB :
    cube_disk ⟨10000, 5000, 0, 0⟩ ⟨10200, 5100, 1048576, 524288⟩ 1
      = some ⟨200, 100, 1, 1/2⟩ := by
  norm_num [cube_disk, svalue, pyTrunc, pyRound, pyRoundInt, USER_HZ]

theorem cube_network_scenarioC :
    cube_network ⟨0, 0, 0, 0⟩ ⟨125000, 62500, 1000, 500⟩ 1
      = some ⟨1, 1/2, 1000, 500⟩ := by
  norm_num [cube_network, svalue, pyTrunc, pyRound, pyRoundInt, USER_HZ]

theorem cube_memory_scenarioD :
    cube_memory ⟨16384, 4096, 512, 4096, 256, 8192⟩
      = some ⟨16384, 7424, 8192, 512, 4096⟩ := by
  norm_num [cube_memory, pyRound, pyRoundInt]

theorem cube_disk_rollover_eval :
    cube_disk ⟨10, 0, 0, 2097152⟩ ⟨5, 3, 1048576, 0⟩ 1 = some ⟨0, 3, 1, 0⟩ := by
  norm_num [cube_disk, svalue, pyTrunc, pyRound, pyRoundInt, USER_HZ]

end CubingService
end XAT

/-! ## Claims C1, C3, C4, C5, C6 -/

namespace XAT
namespace CubingService

/-- C1: on jiffies vectors of length ≥ 8, `cube_cpu` computes overall busy
and idle by the spec's cascade (`Δbusy ≤ 0 → busy 0 / idle 100`, else
`Δtotal ≤ 0 → busy 100 / idle 0`, else clamped `Δbusy/Δtotal·100`), and each
named component by the same cascade over `Δtotal`; amended: `cpu_user` is the
sum of the *separately* cascaded-and-clamped user and nice percentages, not
the clamped percentage of the combined user+nice delta, so `cpu_user` itself
is not confined to `[0, 100]`.  Scenario A evaluates as claimed. -/
theorem claim_C1_cpu_cascade_amended :
    (∀ (a0 a1 a2 a3 a4 a5 a6 a7 b0 b1 b2 b3 b4 b5 b6 b7 : ℚ) (r1 r2 : List ℚ),
      cube_cpu (a0::a1::a2::a3::a4::a5::a6::a7::r1)
          (b0::b1::b2::b3::b4::b5::b6::b7::r2) =
        (let dB : ℚ := (b0+b1+b2+b4+b5+b6+b7) - (a0+a1+a2+a4+a5+a6+a7)
         let dT : ℚ := ((b0+b1+b2+b4+b5+b6+b7) + b3) - ((a0+a1+a2+a4+a5+a6+a7) + a3)
         some { cpu_user := pyRound (specCpuPct (b0-a0) dB dT + specCpuPct (b1-a1) dB dT) 2
                cpu_system := pyRound (specCpuPct (b2-a2) dB dT) 2
                cpu_iowait := pyRound (specCpuPct (b4-a4) dB dT) 2
                cpu_steal := pyRound (specCpuPct (b7-a7) dB dT) 2
                cpu_idle := pyRound (100 - specCpuPct dB dB dT) 2 }))
    ∧ cube_cpu [100000, 0, 50000, 800000, 5000, 1000, 2000, 0]
        [100080, 0, 50020, 800890, 5005, 1000, 2005, 0]
        = some ⟨8, 2, 1/2, 0, 89⟩ :=
  ⟨cube_cpu_cons, cube_cpu_scenarioA⟩

/-- C1 counterexample: on the wraparound input
`prev = [100,0,0,100,0,0,0,0]`, `curr = [150,0,0,0,0,0,0,0]`
(`Δbusy = 50 > 0`, `Δtotal = -50 ≤ 0`) the code stores `cpu_user = 200`,
while the claim's "user+nice computed the same way over Δtotal and clamped
to [0,100]" yields `100`; so the claim as stated is false. -/
theorem claim_C1_counterexample :
    (cube_cpu [100, 0, 0, 100, 0, 0, 0, 0] [150, 0, 0, 0, 0, 0, 0, 0]).map
        (fun r => r.cpu_user) = some 200
    ∧ pyRound (specCpuPct ((150 + 0) - (100 + 0)) 50 (-50)) 2 = 100
    ∧ ¬ ((200:ℚ) ≤ 100) := by
  have h : cube_cpu [100, 0, 0, 100, 0, 0, 0, 0] [150, 0, 0, 0, 0, 0, 0, 0]
      = some ⟨200, 100, 100, 100, 0⟩ := by
    norm_num [cube_cpu, calculate_component, get_all_busy, pyRound, pyRoundInt,
      min_def, max_def]
  refine ⟨by rw [h]; rfl, ?_, by norm_num⟩
  norm_num [specCpuPct, pyRound, pyRoundInt]

/-- C3 (amended): the five stored CPU percentages sum to 100 within the
accumulated rounding tolerance `1/40` *provided* the irq and softirq counters
did not move, every busy component and idle moved forward, and the busy delta
is positive.  (The unrestricted claim is false: irq/softirq activity is part
of busy but of no named component, see the counterexample.) -/
theorem claim_C3_closure_amended
    (a0 a1 a2 a3 a4 a5 a6 a7 b0 b1 b2 b3 b4 b5 b6 b7 : ℚ) (r1 r2 : List ℚ)
    (h0 : a0 ≤ b0) (h1 : a1 ≤ b1) (h2 : a2 ≤ b2) (h3 : a3 ≤ b3)
    (h4 : a4 ≤ b4) (h5 : b5 = a5) (h6 : b6 = a6) (h7 : a7 ≤ b7)
    (hbusy : a0+a1+a2+a4+a5+a6+a7 < b0+b1+b2+b4+b5+b6+b7) :
    ∃ r, cube_cpu (a0::a1::a2::a3::a4::a5::a6::a7::r1)
        (b0::b1::b2::b3::b4::b5::b6::b7::r2) = some r ∧
      |r.cpu_user + r.cpu_system + r.cpu_iowait + r.cpu_steal + r.cpu_idle - 100|
        ≤ 1/40 := by
  rw [cube_cpu_cons]
  refine ⟨_, rfl, ?_⟩
  exact closure_bound (b0-a0) (b1-a1) (b2-a2) (b4-a4) (b7-a7) _ _
    (by linarith) (by linarith) (by linarith)
    (by linarith) (by linarith) (by linarith) (by linarith) (by linarith)

theorem claim_C3_witness :
    ∃ r, cube_cpu [0, 0, 0, 0, 0, 0, 0, 0] [50, 0, 0, 50, 0, 0, 0, 0] = some r ∧
      |r.cpu_user + r.cpu_system + r.cpu_iowait + r.cpu_steal + r.cpu_idle - 100|
        ≤ 1/40 :=
  claim_C3_closure_amended 0 0 0 0 0 0 0 0 50 0 0 50 0 0 0 0 [] []
    (by norm_num) (by norm_num) (by norm_num) (by norm_num) (by norm_num)
    (by norm_num) (by norm_num) (by norm_num) (by norm_num)

/-- C3 counterexample: with a pure irq burst
(`prev` all zero, `curr = [50,0,0,0,0,50,0,0]`) the five stored percentages
sum to 50, not 100: irq (and softirq) time enters busy but no named
component, so the closure claimed for every valid pair fails. -/
theorem claim_C3_counterexample :
    (cube_cpu [0, 0, 0, 0, 0, 0, 0, 0] [50, 0, 0, 0, 0, 50, 0, 0]).map
        (fun r => r.cpu_user + r.cpu_system + r.cpu_iowait + r.cpu_steal + r.cpu_idle)
      = some 50
    ∧ ¬ (|(50:ℚ) - 100| ≤ 1/40) ∧ ¬ (|(50:ℚ) - 100| ≤ 1) := by
  have h : cube_cpu [0, 0, 0, 0, 0, 0, 0, 0] [50, 0, 0, 0, 0, 50, 0, 0]
      = some ⟨50, 0, 0, 0, 0⟩ := by
    norm_num [cube_cpu, calculate_component, get_all_busy, pyRound, pyRoundInt,
      min_def, max_def]
  refine ⟨by rw [h]; norm_num, ?_, ?_⟩ <;> rw [abs_le] <;> push_neg <;>
    intro h' <;> norm_num at h'

/-- C4: `cube_disk`/`cube_network` return `null` whenever
`elapsed_seconds ≤ 0` (no division occurs), and whenever they do return a
result every rate field is the independently clamped (to ≥ 0) per-second
delta of its own counter, hence nonnegative even under rollover, and
siblings are unaffected. -/
theorem claim_C4_rate_guards :
    (∀ (p c : DiskStats) (t : ℚ), t ≤ 0 → cube_disk p c t = none)
    ∧ (∀ (p c : NetStats) (t : ℚ), t ≤ 0 → cube_network p c t = none)
    ∧ (∀ (p c : DiskStats) (t : ℚ) (r : DiskCube), cube_disk p c t = some r →
        (0 ≤ r.disk_read_iops ∧ 0 ≤ r.disk_write_iops
          ∧ 0 ≤ r.disk_read_mbps ∧ 0 ≤ r.disk_write_mbps)
        ∧ r.disk_read_iops
            = pyRound (max 0 ((c.read_ops - p.read_ops) / (pyTrunc (t * 100) : ℚ) * 100)) 2
        ∧ r.disk_write_iops
            = pyRound (max 0 ((c.write_ops - p.write_ops) / (pyTrunc (t * 100) : ℚ) * 100)) 2
        ∧ r.disk_read_mbps
            = pyRound (max 0 ((c.read_bytes - p.read_bytes) / (pyTrunc (t * 100) : ℚ) * 100
                / (1024 * 1024))) 4
        ∧ r.disk_write_mbps
            = pyRound (max 0 ((c.write_bytes - p.write_bytes) / (pyTrunc (t * 100) : ℚ) * 100
                / (1024 * 1024))) 4)
    ∧ (∀ (p c : NetStats) (t : ℚ) (r : NetCube), cube_network p c t = some r →
        (0 ≤ r.net_rx_mbps ∧ 0 ≤ r.net_tx_mbps ∧ 0 ≤ r.net_rx_pps ∧ 0 ≤ r.net_tx_pps)
        ∧ r.net_rx_mbps
            = pyRound (max 0 ((c.rx_bytes - p.rx_bytes) / (pyTrunc (t * 100) : ℚ) * 100
                * 8 / (1000 * 1000))) 4
        ∧ r.net_tx_mbps
            = pyRound (max 0 ((c.tx_bytes - p.tx_bytes) / (pyTrunc (t * 100) : ℚ) * 100
                * 8 / (1000 * 1000))) 4
        ∧ r.net_rx_pps
            = pyRound (max 0 ((c.rx_packets - p.rx_packets) / (pyTrunc (t * 100) : ℚ) * 100)) 2
        ∧ r.net_tx_pps
            = pyRound (max 0 ((c.tx_packets - p.tx_packets) / (pyTrunc (t * 100) : ℚ) * 100)) 2) := by
  refine ⟨?_, ?_, ?_, ?_⟩
  · intro p c t h
    rw [cube_disk, if_pos h]
  · intro p c t h
    rw [cube_network, if_pos h]
  · intro p c t r hr
    obtain ⟨h1, h2, e1, e2, e3, e4⟩ := cube_disk_elim p c t r hr
    refine ⟨⟨?_, ?_, ?_, ?_⟩, e1, e2, e3, e4⟩ <;>
      simp only [e1, e2, e3, e4] <;>
      exact pyRound_nonneg _ _ (le_max_left 0 _)
  · intro p c t r hr
    obtain ⟨h1, h2, e1, e2, e3, e4⟩ := cube_network_elim p c t r hr
    refine ⟨⟨?_, ?_, ?_, ?_⟩, e1, e2, e3, e4⟩ <;>
      simp only [e1, e2, e3, e4] <;>
      exact pyRound_nonneg _ _ (le_max_left 0 _)

theorem claim_C4_witness :
    cube_disk ⟨10, 0, 0, 2097152⟩ ⟨5, 3, 1048576, 0⟩ (-1) = none
    ∧ cube_network ⟨0, 0, 0, 0⟩ ⟨1, 1, 1, 1⟩ 0 = none
    ∧ 0 ≤ (DiskCube.mk 0 3 1 0).disk_read_iops
    ∧ 0 ≤ (NetCube.mk 1 (1/2) 1000 500).net_rx_mbps :=
  ⟨claim_C4_rate_guards.1 _ _ _ (by norm_num),
   claim_C4_rate_guards.2.1 _ _ _ (by norm_num),
   (claim_C4_rate_guards.2.2.1 _ _ _ _ cube_disk_rollover_eval).1.1,
   (claim_C4_rate_guards.2.2.2 _ _ _ _ cube_network_scenarioC).1.1⟩

/-- C5: disk byte rates are per-second deltas divided by `1024²` (MB/s),
network byte rates are per-second deltas times 8 divided by `10⁶` (Mbit/s),
packet/op rates stay counts per second; scenarios B and C evaluate exactly
as claimed. -/
theorem claim_C5_unit_conversions :
    (∀ (p c : DiskStats) (t : ℚ) (r : DiskCube), cube_disk p c t = some r →
      r.disk_read_mbps
        = pyRound (max 0 (svalue p.read_bytes c.read_bytes (pyTrunc (t * USER_HZ))
            / (1024 * 1024))) 4
      ∧ r.disk_write_mbps
        = pyRound (max 0 (svalue p.write_bytes c.write_bytes (pyTrunc (t * USER_HZ))
            / (1024 * 1024))) 4
      ∧ r.disk_read_iops
        = pyRound (max 0 (svalue p.read_ops c.read_ops (pyTrunc (t * USER_HZ)))) 2
      ∧ r.disk_write_iops
        = pyRound (max 0 (svalue p.write_ops c.write_ops (pyTrunc (t * USER_HZ)))) 2)
    ∧ (∀ (p c : NetStats) (t : ℚ) (r : NetCube), cube_network p c t = some r →
      r.net_rx_mbps
        = pyRound (max 0 (svalue p.rx_bytes c.rx_bytes (pyTrunc (t * USER_HZ))
            * 8 / (1000 * 1000))) 4
      ∧ r.net_tx_mbps
        = pyRound (max 0 (svalue p.tx_bytes c.tx_bytes (pyTrunc (t * USER_HZ))
            * 8 / (1000 * 1000))) 4
      ∧ r.net_rx_pps
        = pyRound (max 0 (svalue p.rx_packets c.rx_packets (pyTrunc (t * USER_HZ)))) 2
      ∧ r.net_tx_pps
        = pyRound (max 0 (svalue p.tx_packets c.tx_packets (pyTrunc (t * USER_HZ)))) 2)
    ∧ cube_disk ⟨10000, 5000, 0, 0⟩ ⟨10200, 5100, 1048576, 524288⟩ 1
        = some ⟨200, 100, 1, 1/2⟩
    ∧ cube_network ⟨0, 0, 0, 0⟩ ⟨125000, 62500, 1000, 500⟩ 1
        = some ⟨1, 1/2, 1000, 500⟩ := by
  refine ⟨?_, ?_, cube_disk_scenarioB, cube_network_scenarioC⟩
  · intro p c t r hr
    obtain ⟨h1, h2, e1, e2, e3, e4⟩ := cube_disk_elim p c t r hr
    simp only [svalue, USER_HZ, if_neg h2]
    exact ⟨e3, e4, e1, e2⟩
  · intro p c t r hr
    obtain ⟨h1, h2, e1, e2, e3, e4⟩ := cube_network_elim p c t r hr
    simp only [svalue, USER_HZ, if_neg h2]
    exact ⟨e1, e2, e3, e4⟩

theorem claim_C5_witness :
    (DiskCube.mk 200 100 1 (1/2)).disk_read_mbps
      = pyRound (max 0 (svalue 0 1048576 (pyTrunc ((1:ℚ) * USER_HZ)) / (1024 * 1024))) 4
    ∧ (NetCube.mk 1 (1/2) 1000 500).net_rx_mbps
      = pyRound (max 0 (svalue 0 125000 (pyTrunc ((1:ℚ) * USER_HZ)) * 8 / (1000 * 1000))) 4 :=
  ⟨(claim_C5_unit_conversions.1 _ _ _ _ cube_disk_scenarioB).1,
   (claim_C5_unit_conversions.2.1 _ _ _ _ cube_network_scenarioC).1⟩

/-- C6: `cube_memory` needs only the current reading; it returns `null`
exactly when `mem_total ≤ 0`, otherwise `used = total - unused` with
`unused = free + buffers + cached + slab` capped at `total`; scenario D
evaluates exactly as claimed. -/
theorem claim_C6_cube_memory :
    (∀ m : Meminfo, cube_memory m = none ↔ m.mem_total ≤ 0)
    ∧ (∀ (m : Meminfo) (r : MemCube), cube_memory m = some r →
        r.mem_total = pyRound m.mem_total 2
        ∧ r.mem_used = pyRound (m.mem_total
            - min (m.mem_free + m.mem_buffers + m.mem_cached + m.mem_slab) m.mem_total) 2
        ∧ r.mem_available = pyRound m.mem_available 2
        ∧ r.mem_buffers = pyRound m.mem_buffers 2
        ∧ r.mem_cached = pyRound m.mem_cached 2)
    ∧ cube_memory ⟨16384, 4096, 512, 4096, 256, 8192⟩
        = some ⟨16384, 7424, 8192, 512, 4096⟩ := by
  refine ⟨?_, ?_, cube_memory_scenarioD⟩
  · intro m
    rw [cube_memory]
    by_cases h : m.mem_total ≤ 0 <;> simp [h]
  · intro m r hr
    exact (cube_memory_elim m r hr).2

theorem claim_C6_witness :
    (MemCube.mk 16384 7424 8192 512 4096).mem_used
      = pyRound ((16384:ℚ) - min ((4096:ℚ) + 512 + 4096 + 256) 16384) 2
    ∧ (cube_memory ⟨0, 1, 1, 1, 1, 1⟩ = none ↔ (0:ℚ) ≤ 0) :=
  ⟨((claim_C6_cube_memory.2.1 _ _ cube_memory_scenarioD).2.1),
   claim_C6_cube_memory.1 ⟨0, 1, 1, 1, 1, 1⟩⟩

end CubingService
end XAT

/-! ## Python string primitives

Raw measurement text is embedded as `List Char`.  The Python string
operations used by the parsers in `collectors/api/views.py` are modelled by
the structural functions below (ASCII inputs; the proc files parsed here are
ASCII). -/

namespace XAT

/-- Python `str.split()` with no argument: split on runs of whitespace,
dropping empty pieces. -/
def pySplitWsAux (cur : List Char) (acc : List (List Char)) :
    List Char → List (List Char)
  | [] => if cur = [] then acc.reverse else (cur.reverse :: acc).reverse
  | ch :: rest =>
    if ch.isWhitespace then
      if cur = [] then pySplitWsAux [] acc rest
      else pySplitWsAux [] (cur.reverse :: acc) rest
    else pySplitWsAux (ch :: cur) acc rest

/-- Python `str.split()` with no argument. -/
def pySplitWs (s : List Char) : List (List Char) :=
  pySplitWsAux [] [] s

/-- Python `str.split(sep)` for a one-character separator: every occurrence
separates, empty pieces are kept. -/
def splitOnCharAux (sep : Char) (cur : List Char) (acc : List (List Char)) :
    List Char → List (List Char)
  | [] => (cur.reverse :: acc).reverse
  | ch :: rest =>
    if ch = sep then splitOnCharAux sep [] (cur.reverse :: acc) rest
    else splitOnCharAux sep (ch :: cur) acc rest

/-- Python `str.split(sep)` for a one-character separator. -/
def splitOnChar (sep : Char) (s : List Char) : List (List Char) :=
  splitOnCharAux sep [] [] s

/-- Python `str.strip()`. -/
def pyStrip (s : List Char) : List Char :=
  ((s.dropWhile Char.isWhitespace).reverse.dropWhile Char.isWhitespace).reverse

/-- Python `str.startswith(pat)`. -/
def leadsWith : List Char → List Char → Bool
  | [], _ => true
  | _ :: _, [] => false
  | p :: ps, ch :: rest => p = ch && leadsWith ps rest

/-- Python `sub in s` substring membership. -/
def hasSub (sub : List Char) : List Char → Bool
  | [] => sub.isEmpty
  | ch :: rest => leadsWith sub (ch :: rest) || hasSub sub rest

/-- Value of a nonempty all-digit run. -/
def digitsVal (cs : List Char) : Option ℕ :=
  if cs ≠ [] ∧ cs.all Char.isDigit then
    some (cs.foldl (fun n ch => 10 * n + (ch.toNat - 48)) 0)
  else none

/-- Python `int(str)` on an ASCII decimal literal: optional surrounding
whitespace, an optional sign, then one or more digits; anything else raises
ValueError (`none` here).  (Underscore digit grouping is not modelled; no
text in this development contains it.) -/
def pyInt (s : List Char) : Option ℤ :=
  match pyStrip s with
  | '-' :: ds => (digitsVal ds).map (fun n => -(n : ℤ))
  | '+' :: ds => (digitsVal ds).map (fun n => (n : ℤ))
  | ds => (digitsVal ds).map (fun n => (n : ℤ))

/-- One `int(...)` call inside a `try` block whose exception escapes the
parser: `none` becomes a ValueError. -/
def pyIntE (s : List Char) : Except Unit ℤ :=
  match pyInt s with
  | some n => .ok n
  | none => .error ()

end XAT

/-! ## The trickle parsers, from `TrickleView` in `collectors/api/views.py`
(the same parser bodies appear verbatim in `MetricsUploadView`). -/

namespace XAT
namespace TrickleView

/-- The eight jiffies read off the aggregate cpu line by
`_parse_proc_stat` (`steal` defaults to 0 when only 7 numbers appear). -/
structure CpuJiffies8 where
  user : ℤ
  nice : ℤ
  system : ℤ
  idle : ℤ
  iowait : ℤ
  irq : ℤ
  softirq : ℤ
  steal : ℤ
deriving DecidableEq, Repr

/-- The CPU percentage dict returned by `_parse_proc_stat`. -/
structure CpuParsed where
  cpu_user : ℚ
  cpu_system : ℚ
  cpu_iowait : ℚ
  cpu_idle : ℚ
  cpu_steal : ℚ
deriving DecidableEq, Repr

/-- The percentage dict `_parse_proc_stat` builds from the cumulative
jiffies of the accepted cpu line (`total` is their sum, positive by the
guard in `parse_stat_jiffies`). -/
def cpuPercentages (j : CpuJiffies8) : CpuParsed :=
  let total : ℚ := ((j.user + j.nice + j.system + j.idle + j.iowait
    + j.irq + j.softirq + j.steal : ℤ) : ℚ)
  { cpu_user := pyRound (100 * ((j.user + j.nice : ℤ) : ℚ) / total) 2
    cpu_system := pyRound (100 * (j.system : ℚ) / total) 2
    cpu_iowait := pyRound (100 * (j.iowait : ℚ) / total) 2
    cpu_idle := pyRound (100 * (j.idle : ℚ) / total) 2
    cpu_steal := pyRound (100 * (j.steal : ℚ) / total) 2 }

/-- The line scan of `_parse_proc_stat`: find a line starting `"cpu "`,
require at least 8 whitespace tokens (the `cpu` token plus ≥ 7 numbers),
convert with `int(...)` (a failure raises, aborting the whole scan), default
`steal` to 0 when absent, ignore tokens past the 9th, and accept only when
the summed total is positive, otherwise keep scanning. -/
def parse_stat_jiffies : List (List Char) → Except Unit (Option CpuJiffies8)
  | [] => .ok none
  | line :: rest =>
    if leadsWith ("cpu ".toList) line then
      let parts := pySplitWs line
      if 8 ≤ parts.length then do
        let user ← pyIntE (parts.getD 1 [])
        let nice ← pyIntE (parts.getD 2 [])
        let system ← pyIntE (parts.getD 3 [])
        let idle ← pyIntE (parts.getD 4 [])
        let iowait ← if 5 < parts.length then pyIntE (parts.getD 5 []) else pure 0
        let irq ← if 6 < parts.length then pyIntE (parts.getD 6 []) else pure 0
        let softirq ← if 7 < parts.length then pyIntE (parts.getD 7 []) else pure 0
        let steal ← if 8 < parts.length then pyIntE (parts.getD 8 []) else pure 0
        let total := user + nice + system + idle + iowait + irq + softirq + steal
        if 0 < total then
          pure (some ⟨user, nice, system, idle, iowait, irq, softirq, steal⟩)
        else parse_stat_jiffies rest
      else parse_stat_jiffies rest
    else parse_stat_jiffies rest

/-- `TrickleView._parse_proc_stat`: `None` on falsy input, else the scan
above followed by the percentage computation on the accepted line.  (The
source builds the dict inline at the accept point; the two stages compose
to the same function.) -/
def parse_proc_stat (measurement : List Char) : Except Unit (Option CpuParsed) :=
  if measurement = [] then .ok none
  else (parse_stat_jiffies (splitOnChar '\n' measurement)).map
    (Option.map cpuPercentages)

/-- The memory dict returned by `_parse_meminfo` (MB values). -/
structure MemParsed where
  mem_total : ℚ
  mem_used : ℚ
  mem_available : ℚ
  mem_buffers : ℚ
  mem_cached : ℚ
deriving DecidableEq, Repr

/-- Association-list write `values[key] = n` (Python dict assignment). -/
def assocSet {α β : Type} [DecidableEq α] :
    List (α × β) → α → β → List (α × β)
  | [], k, v => [(k, v)]
  | (k', v') :: rest, k, v =>
    if k' = k then (k, v) :: rest else (k', v') :: assocSet rest k v

/-- Association-list read `values.get(key, dflt)`. -/
def lookupD {α β : Type} [DecidableEq α] :
    List (α × β) → α → β → β
  | [], _, dflt => dflt
  | (k', v) :: rest, k, dflt => if k' = k then v else lookupD rest k dflt

/-- The `KEY: VALUE [unit]` harvesting loop of `_parse_meminfo`: exactly one
colon, leading integer of the value, non-numeric values skipped. -/
def meminfo_values (lines : List (List Char)) : List (List Char × ℤ) :=
  lines.foldl (fun vals line =>
    match splitOnChar ':' line with
    | [k, v] =>
      match pySplitWs (pyStrip v) with
      | [] => vals
      | v0 :: _ =>
        match pyInt v0 with
        | some n => assocSet vals (pyStrip k) n
        | none => vals
    | _ => vals) []

/-- The kB numbers `_parse_meminfo` extracts before unit conversion:
`(MemTotal, MemAvailable, Buffers, Cached)`, or `None` on falsy input or
`MemTotal ≤ 0`.  (`MemFree` is read by the source but unused.) -/
def meminfo_numbers (measurement : List Char) : Option (ℤ × ℤ × ℤ × ℤ) :=
  if measurement = [] then none
  else
    let values := meminfo_values (splitOnChar '\n' measurement)
    let mem_total := lookupD values ("MemTotal".toList) 0
    let _mem_free := lookupD values ("MemFree".toList) 0
    let mem_available := lookupD values ("MemAvailable".toList) 0
    let buffers := lookupD values ("Buffers".toList) 0
    let cached := lookupD values ("Cached".toList) 0
    if 0 < mem_total then some (mem_total, mem_available, buffers, cached)
    else none

/-- The MB dict `_parse_meminfo` builds from the extracted kB numbers
(`mem_used = MemTotal - MemAvailable`). -/
def memOutput (mem_total mem_available buffers cached : ℤ) : MemParsed :=
  { mem_total := pyRound ((mem_total : ℚ) / 1024) 2
    mem_used := pyRound (((mem_total - mem_available : ℤ) : ℚ) / 1024) 2
    mem_available := pyRound ((mem_available : ℚ) / 1024) 2
    mem_buffers := pyRound ((buffers : ℚ) / 1024) 2
    mem_cached := pyRound ((cached : ℚ) / 1024) 2 }

/-- `TrickleView._parse_meminfo`: kB values harvested per line, `None`
unless `MemTotal > 0`, output converted to MB and rounded.  (The source
builds the dict inline; the extraction and the conversion compose to the
same function.) -/
def parse_meminfo (measurement : List Char) : Option MemParsed :=
  (meminfo_numbers measurement).map
    (fun v => memOutput v.1 v.2.1 v.2.2.1 v.2.2.2)

/-- The cumulative disk counters returned by `_parse_diskstats`. -/
structure DiskParsed where
  disk_read_bytes : ℤ
  disk_write_bytes : ℤ
  disk_read_ops : ℤ
  disk_write_ops : ℤ
deriving DecidableEq, Repr

/-- Digits, then `n`, then digits: the tail of `nvme\d+n\d+`. -/
def nvmeTail (cs : List Char) : Bool :=
  let ds1 := cs.takeWhile Char.isDigit
  let rest := cs.dropWhile Char.isDigit
  ds1 ≠ [] && (match rest with
    | 'n' :: ds2 => ds2 ≠ [] && ds2.all Char.isDigit
    | _ => false)

/-- The whole-disk device-name pattern
`^(sd[a-z]|nvme\d+n\d+|vd[a-z]|xvd[a-z])$`. -/
def isWholeDiskName (s : List Char) : Bool :=
  match s with
  | ['s', 'd', ch] => ch.isLower
  | ['v', 'd', ch] => ch.isLower
  | ['x', 'v', 'd', ch] => ch.isLower
  | 'n' :: 'v' :: 'm' :: 'e' :: rest => nvmeTail rest
  | _ => false

/-- `TrickleView._parse_diskstats`: sum ops and 512-byte sectors across
whole-disk devices; lines with fewer than 10 tokens, non-matching names or
non-numeric counters contribute nothing. -/
def parse_diskstats (measurement : List Char) : Option DiskParsed :=
  if measurement = [] then none
  else some ((splitOnChar '\n' measurement).foldl (fun acc line =>
    let parts := pySplitWs line
    if 10 ≤ parts.length then
      if isWholeDiskName (parts.getD 2 []) then
        match pyInt (parts.getD 3 []), pyInt (parts.getD 5 []),
            pyInt (parts.getD 7 []), pyInt (parts.getD 9 []) with
        | some read_ops, some sectors_read, some write_ops, some sectors_written =>
          { disk_read_bytes := acc.disk_read_bytes + sectors_read * 512
            disk_write_bytes := acc.disk_write_bytes + sectors_written * 512
            disk_read_ops := acc.disk_read_ops + read_ops
            disk_write_ops := acc.disk_write_ops + write_ops }
        | _, _, _, _ => acc
      else acc
    else acc) ⟨0, 0, 0, 0⟩)

/-- The cumulative network counters returned by `_parse_netdev`. -/
structure NetParsed where
  net_rx_bytes : ℤ
  net_tx_bytes : ℤ
  net_rx_packets : ℤ
  net_tx_packets : ℤ
deriving DecidableEq, Repr

/-- `TrickleView._parse_netdev`: sum rx/tx bytes and packets across
interfaces, skipping header lines (containing `Inter-` or `face`), lines
without a colon, and the loopback interface. -/
def parse_netdev (measurement : List Char) : Option NetParsed :=
  if measurement = [] then none
  else some ((splitOnChar '\n' measurement).foldl (fun acc line =>
    if !hasSub (":".toList) line || hasSub ("Inter-".toList) line
        || hasSub ("face".toList) line then acc
    else
      match splitOnChar ':' line with
      | [a, b] =>
        if pyStrip a = "lo".toList then acc
        else
          let values := pySplitWs b
          if 10 ≤ values.length then
            match pyInt (values.getD 0 []), pyInt (values.getD 1 []),
                pyInt (values.getD 8 []), pyInt (values.getD 9 []) with
            | some rx_bytes, some rx_packets, some tx_bytes, some tx_packets =>
              { net_rx_bytes := acc.net_rx_bytes + rx_bytes
                net_rx_packets := acc.net_rx_packets + rx_packets
                net_tx_bytes := acc.net_tx_bytes + tx_bytes
                net_tx_packets := acc.net_tx_packets + tx_packets }
            | _, _, _, _ => acc
          else acc
      | _ => acc) ⟨0, 0, 0, 0⟩)

end TrickleView
end XAT

deriving instance DecidableEq for Except

/-! ## The trickle ingestion pipeline and session lifecycle -/

namespace XAT
namespace TrickleView

/-- One element of the `measurements` array of a trickle request
(`{timestamp, subsystem, measurement}`). -/
structure Measurement where
  timestamp : ℤ
  subsystem : List Char
  measurement : List Char
deriving DecidableEq, Repr

/-- The metric columns of one `PerformanceMetric` row
(`collectors/models.py`): CPU percentages and memory MB values as nullable
floats, disk/network cumulative counters as nullable big integers.  All
columns default to null. -/
structure MetricFields where
  cpu_user : Option ℚ := none
  cpu_system : Option ℚ := none
  cpu_iowait : Option ℚ := none
  cpu_idle : Option ℚ := none
  cpu_steal : Option ℚ := none
  mem_total : Option ℚ := none
  mem_used : Option ℚ := none
  mem_available : Option ℚ := none
  mem_buffers : Option ℚ := none
  mem_cached : Option ℚ := none
  disk_read_bytes : Option ℤ := none
  disk_write_bytes : Option ℤ := none
  disk_read_ops : Option ℤ := none
  disk_write_ops : Option ℤ := none
  net_rx_bytes : Option ℤ := none
  net_tx_bytes : Option ℤ := none
  net_rx_packets : Option ℤ := none
  net_tx_packets : Option ℤ := none
deriving DecidableEq, Repr

/-- The `metric_data` dict before any parser ran: only key columns set. -/
def emptyMetricFields : MetricFields := {}

/-- `metric_data.update(cpu_data)`. -/
def setCpu (f : MetricFields) (c : CpuParsed) : MetricFields :=
  { f with cpu_user := some c.cpu_user, cpu_system := some c.cpu_system,
           cpu_iowait := some c.cpu_iowait, cpu_idle := some c.cpu_idle,
           cpu_steal := some c.cpu_steal }

/-- `metric_data.update(mem_data)`. -/
def setMem (f : MetricFields) (m : MemParsed) : MetricFields :=
  { f with mem_total := some m.mem_total, mem_used := some m.mem_used,
           mem_available := some m.mem_available, mem_buffers := some m.mem_buffers,
           mem_cached := some m.mem_cached }

/-- `metric_data.update(disk_data)`. -/
def setDisk (f : MetricFields) (d : DiskParsed) : MetricFields :=
  { f with disk_read_bytes := some d.disk_read_bytes,
           disk_write_bytes := some d.disk_write_bytes,
           disk_read_ops := some d.disk_read_ops,
           disk_write_ops := some d.disk_write_ops }

/-- `metric_data.update(net_data)`. -/
def setNet (f : MetricFields) (n : NetParsed) : MetricFields :=
  { f with net_rx_bytes := some n.net_rx_bytes, net_tx_bytes := some n.net_tx_bytes,
           net_rx_packets := some n.net_rx_packets, net_tx_packets := some n.net_tx_packets }

/-- Membership lookup in the per-timestamp subsystem dict. -/
def lookupSub : List (List Char × List Char) → List Char → Option (List Char)
  | [], _ => none
  | (k', v) :: rest, k => if k' = k then some v else lookupSub rest k

/-- The per-timestamp body of `_process_trickle_measurements`: parse each
recognized subsystem present and accumulate the parsed columns into
`metric_data`.  A ValueError escaping `_parse_proc_stat` aborts the whole
group (the surrounding `try`), mirroring the source. -/
def buildMetricFields (subs : List (List Char × List Char)) :
    Except Unit MetricFields := do
  let f0 := emptyMetricFields
  let f1 ← match lookupSub subs ("/proc/stat".toList) with
    | some txt => do
      match ← parse_proc_stat txt with
      | some c => pure (setCpu f0 c)
      | none => pure f0
    | none => pure f0
  let f2 := match lookupSub subs ("/proc/meminfo".toList) with
    | some txt => match parse_meminfo txt with
      | some m => setMem f1 m
      | none => f1
    | none => f1
  let f3 := match lookupSub subs ("/proc/diskstats".toList) with
    | some txt => match parse_diskstats txt with
      | some d => setDisk f2 d
      | none => f2
    | none => f2
  let f4 := match lookupSub subs ("/proc/net/dev".toList) with
    | some txt => match parse_netdev txt with
      | some n => setNet f3 n
      | none => f3
    | none => f3
  pure f4

/-- `grouped[ts][subsystem] = measurement` for one measurement: groups keep
first-appearance order, later duplicates of a subsystem overwrite. -/
def tsInsert (g : List (ℤ × List (List Char × List Char))) (ts : ℤ)
    (sub txt : List Char) : List (ℤ × List (List Char × List Char)) :=
  match g with
  | [] => [(ts, [(sub, txt)])]
  | (t, m) :: rest =>
    if t = ts then (t, assocSet m sub txt) :: rest
    else (t, m) :: tsInsert rest ts sub txt

/-- The grouping loop of `_process_trickle_measurements`. -/
def groupByTs (ms : List Measurement) : List (ℤ × List (List Char × List Char)) :=
  ms.foldl (fun g m => tsInsert g m.timestamp m.subsystem m.measurement) []

/-- Key of a `PerformanceMetric` row: `(collector id, timestamp)`
(`unique_together = ['collector', 'timestamp']`). -/
abbrev MetricKey := ℤ × ℤ

/-- The `PerformanceMetric` table for the collectors involved. -/
abbrev MetricStore := List (MetricKey × MetricFields)

/-- Column-wise write of `update_or_create(..., defaults=metric_data)`:
columns present in `metric_data` overwrite, the rest keep their stored
value. -/
def mergeFields (old new : MetricFields) : MetricFields :=
  { cpu_user := new.cpu_user.orElse fun _ => old.cpu_user
    cpu_system := new.cpu_system.orElse fun _ => old.cpu_system
    cpu_iowait := new.cpu_iowait.orElse fun _ => old.cpu_iowait
    cpu_idle := new.cpu_idle.orElse fun _ => old.cpu_idle
    cpu_steal := new.cpu_steal.orElse fun _ => old.cpu_steal
    mem_total := new.mem_total.orElse fun _ => old.mem_total
    mem_used := new.mem_used.orElse fun _ => old.mem_used
    mem_available := new.mem_available.orElse fun _ => old.mem_available
    mem_buffers := new.mem_buffers.orElse fun _ => old.mem_buffers
    mem_cached := new.mem_cached.orElse fun _ => old.mem_cached
    disk_read_bytes := new.disk_read_bytes.orElse fun _ => old.disk_read_bytes
    disk_write_bytes := new.disk_write_bytes.orElse fun _ => old.disk_write_bytes
    disk_read_ops := new.disk_read_ops.orElse fun _ => old.disk_read_ops
    disk_write_ops := new.disk_write_ops.orElse fun _ => old.disk_write_ops
    net_rx_bytes := new.net_rx_bytes.orElse fun _ => old.net_rx_bytes
    net_tx_bytes := new.net_tx_bytes.orElse fun _ => old.net_tx_bytes
    net_rx_packets := new.net_rx_packets.orElse fun _ => old.net_rx_packets
    net_tx_packets := new.net_tx_packets.orElse fun _ => old.net_tx_packets }

/-- `PerformanceMetric.objects.update_or_create(collector=…, timestamp=…,
defaults=…)`: update the row with this key if one exists, else insert. -/
def update_or_create (store : MetricStore) (k : MetricKey) (f : MetricFields) :
    MetricStore :=
  match store with
  | [] => [(k, f)]
  | (k', r) :: rest =>
    if k' = k then (k, mergeFields r f) :: rest
    else (k', r) :: update_or_create rest k f

/-- Row lookup by key. -/
def lookupKey : MetricStore → MetricKey → Option MetricFields
  | [], _ => none
  | (k', r) :: rest, k => if k' = k then some r else lookupKey rest k

/-- Number of rows carrying a key. -/
def countKey (store : MetricStore) (k : MetricKey) : ℕ :=
  (store.filter (fun e => decide (e.1 = k))).length

/-- The body of the per-timestamp loop of `_process_trickle_measurements`:
parse the group and upsert one row keyed by `(collector, timestamp)`
(`timezone.now()` — the `now` argument — substituted for the Python-falsy
timestamp `0`); a group whose parsing raises is logged and skipped, leaving
count and store untouched. -/
def processGroup (collector now : ℤ) (acc : ℕ × MetricStore)
    (g : ℤ × List (List Char × List Char)) : ℕ × MetricStore :=
  match buildMetricFields g.2 with
  | .ok f => (acc.1 + 1,
      update_or_create acc.2 (collector, if g.1 = 0 then now else g.1) f)
  | .error _ => acc

/-- `TrickleView._process_trickle_measurements`: group by timestamp, then
run the per-group loop over the groups.  Returns
`(processed_count, store)`. -/
def process_trickle_measurements (collector : ℤ) (measurements : List Measurement)
    (store : MetricStore) (now : ℤ) : ℕ × MetricStore :=
  (groupByTs measurements).foldl (processGroup collector now) (0, store)

/-- `TrickleSession.Status`. -/
inductive SessionStatus
  | active
  | completed
  | saved
deriving DecidableEq, Repr, BEq

/-- One `TrickleSession` row (times are integers on one shared timeline). -/
structure Session where
  collector : ℤ
  status : SessionStatus
  started_at : ℤ
  last_data_at : Option ℤ
  ended_at : Option ℤ
  sample_count : ℕ
deriving DecidableEq, Repr

/-- The persisted state the trickle pipeline reads and writes. -/
structure PipeState where
  sessions : List Session
  store : MetricStore
deriving DecidableEq, Repr

/-- Does the collector have an ACTIVE session? -/
def hasActive (sessions : List Session) (c : ℤ) : Bool :=
  sessions.any (fun s => s.collector == c && s.status == SessionStatus.active)

/-- `TrickleSession.objects.get_or_create(collector=…, status=ACTIVE,
defaults=…)`: reuse the existing ACTIVE session, else append a fresh one. -/
def getOrCreateActive (sessions : List Session) (c : ℤ) (now : ℤ) : List Session :=
  if hasActive sessions c then sessions
  else sessions ++ [{ collector := c, status := .active, started_at := now,
                      last_data_at := none, ended_at := none, sample_count := 0 }]

/-- Apply an update to the (unique) ACTIVE session of a collector. -/
def updateFirstActive (sessions : List Session) (c : ℤ) (upd : Session → Session) :
    List Session :=
  match sessions with
  | [] => []
  | s :: rest =>
    if s.collector == c && s.status == SessionStatus.active then upd s :: rest
    else s :: updateFirstActive rest c upd

/-- The first ACTIVE session of a collector, if any. -/
def firstActive : List Session → ℤ → Option Session
  | [], _ => none
  | s :: rest, c =>
    if s.collector == c && s.status == SessionStatus.active then some s
    else firstActive rest c

/-- `TrickleView.post`: an empty measurement list returns before touching
the session; otherwise get-or-create the ACTIVE session, process the
measurements, then set `last_data_at` and add `metrics_count` to
`sample_count`.  (The collector's own `last_seen` bookkeeping is out of
scope.) -/
def post (st : PipeState) (c : ℤ) (measurements : List Measurement) (now : ℤ) :
    PipeState :=
  if measurements = [] then st
  else
    let sessions := getOrCreateActive st.sessions c now
    let res := process_trickle_measurements c measurements st.store now
    { sessions := updateFirstActive sessions c
        (fun s => { s with last_data_at := some now,
                           sample_count := s.sample_count + res.1 })
      store := res.2 }

/-- `PerformanceMetric.objects.filter(collector=…, timestamp__gte=…,
timestamp__lte=…).count()`. -/
def countMetricsWindow (store : MetricStore) (c : ℤ) (lo hi : ℤ) : ℕ :=
  (store.filter (fun e =>
    e.1.1 == c && decide (lo ≤ e.1.2) && decide (e.1.2 ≤ hi))).length

/-- `CheckAndCompleteInactiveSessionsAPI.post`: complete every ACTIVE
session whose `last_data_at` is older than `now - timeout_minutes*60`
(sessions with null `last_data_at` are not matched by the `__lt` filter);
`ended_at` becomes `last_data_at` (or the threshold when null, unreachable
through that filter but kept from the source), and `sample_count` is
recounted from the stored rows between `started_at` and `ended_at`.
(The per-owner filter is dropped: one tenant.) -/
def sweepInactive (st : PipeState) (now timeout_minutes : ℤ) : PipeState :=
  let threshold := now - timeout_minutes * 60
  { st with sessions := st.sessions.map (fun s =>
      if s.status == SessionStatus.active
          && (match s.last_data_at with
              | some t => decide (t < threshold)
              | none => false) then
        let e := match s.last_data_at with
          | some t => t
          | none => threshold
        { s with status := .completed, ended_at := some e,
                 sample_count := countMetricsWindow st.store s.collector s.started_at e }
      else s) }

/-- `CompleteSessionAPI.post` on the ACTIVE session of a collector: mark it
COMPLETED with `ended_at = last_data_at or now` and recount its samples. -/
def completeSession (st : PipeState) (c : ℤ) (now : ℤ) : PipeState :=
  { st with sessions := updateFirstActive st.sessions c (fun s =>
      let e := match s.last_data_at with
        | some t => t
        | none => now
      { s with status := .completed, ended_at := some e,
               sample_count := countMetricsWindow st.store s.collector s.started_at e }) }

/-- The events that touch sessions or metric rows. -/
inductive Step : PipeState → PipeState → Prop
  | trickle (st : PipeState) (c : ℤ) (ms : List Measurement) (now : ℤ) :
      Step st (post st c ms now)
  | sweep (st : PipeState) (now timeout_minutes : ℤ) :
      Step st (sweepInactive st now timeout_minutes)
  | complete (st : PipeState) (c now : ℤ) :
      Step st (completeSession st c now)

/-- The empty deployment. -/
def initState : PipeState := { sessions := [], store := [] }

/-- States the pipeline can reach from an empty deployment. -/
inductive Reachable : PipeState → Prop
  | init : Reachable initState
  | step {st st' : PipeState} : Reachable st → Step st st' → Reachable st'

/-- Number of ACTIVE sessions of a collector. -/
def countActive (sessions : List Session) (c : ℤ) : ℕ :=
  (sessions.filter (fun s => s.collector == c && s.status == SessionStatus.active)).length

end TrickleView
end XAT

namespace XAT
namespace TrickleView

theorem orElse_self_orElse {α : Type} (a b : Option α) :
    (a.orElse fun _ => a.orElse fun _ => b) = a.orElse fun _ => b := by
  cases a <;> rfl

theorem orElse_self {α : Type} (a : Option α) :
    (a.orElse fun _ => a) = a := by
  cases a <;> rfl

theorem mergeFields_merge_idem (r f : MetricFields) :
    mergeFields (mergeFields r f) f = mergeFields r f := by
  simp only [mergeFields, orElse_self_orElse]

theorem mergeFields_self (f : MetricFields) : mergeFields f f = f := by
  simp only [mergeFields, orElse_self]

theorem mergeFields_empty_new (r : MetricFields) :
    mergeFields r emptyMetricFields = r := by
  simp only [mergeFields, emptyMetricFields]
  rfl

theorem update_or_create_idem (s : MetricStore) (k : MetricKey) (f : MetricFields) :
    update_or_create (update_or_create s k f) k f = update_or_create s k f := by
  induction s with
  | nil => simp [update_or_create, mergeFields_self]
  | cons e rest ih =>
    obtain ⟨k', r⟩ := e
    by_cases h : k' = k
    · subst h
      simp [update_or_create, mergeFields_merge_idem]
    · simp [update_or_create, h, ih]

theorem countKey_eq_zero_of_not_mem (s : MetricStore) (k : MetricKey)
    (h : k ∉ s.map Prod.fst) : countKey s k = 0 := by
  induction s with
  | nil => rfl
  | cons e rest ih =>
    simp only [List.map_cons, List.mem_cons, not_or] at h
    simp only [countKey, List.filter_cons]
    rw [if_neg (by simpa using fun he => h.1 he.symm)]
    exact ih h.2

theorem countKey_update_nodup (s : MetricStore) (k : MetricKey) (f : MetricFields)
    (h : (s.map Prod.fst).Nodup) : countKey (update_or_create s k f) k = 1 := by
  induction s with
  | nil => simp [update_or_create, countKey, List.filter_cons]
  | cons e rest ih =>
    obtain ⟨k', r⟩ := e
    simp only [List.map_cons, List.nodup_cons] at h
    by_cases hk : k' = k
    · subst hk
      simp only [update_or_create, if_pos rfl, countKey, List.filter_cons]
      rw [if_pos (by simp)]
      have : countKey rest k' = 0 := countKey_eq_zero_of_not_mem rest k' h.1
      simpa [countKey] using this
    · simp only [update_or_create, if_neg hk, countKey, List.filter_cons]
      rw [if_neg (by simpa using hk)]
      exact ih h.2

theorem mem_keys_update (s : MetricStore) (k k' : MetricKey) (f : MetricFields)
    (h : k' ∈ (update_or_create s k f).map Prod.fst) :
    k' ∈ s.map Prod.fst ∨ k' = k := by
  induction s with
  | nil => simpa [update_or_create] using h
  | cons e rest ih =>
    obtain ⟨k0, r⟩ := e
    by_cases hk : k0 = k
    · subst hk
      rw [show update_or_create ((k0, r) :: rest) k0 f
          = (k0, mergeFields r f) :: rest from by
        simp [update_or_create]] at h
      simp only [List.map_cons, List.mem_cons] at h ⊢
      tauto
    · rw [show update_or_create ((k0, r) :: rest) k f
          = (k0, r) :: update_or_create rest k f from by
        simp [update_or_create, hk]] at h
      simp only [List.map_cons, List.mem_cons] at h ⊢
      rcases h with h | h
      · exact Or.inl (Or.inl h)
      · rcases ih h with h' | h'
        · exact Or.inl (Or.inr h')
        · exact Or.inr h'

theorem nodup_keys_update (s : MetricStore) (k : MetricKey) (f : MetricFields)
    (h : (s.map Prod.fst).Nodup) :
    ((update_or_create s k f).map Prod.fst).Nodup := by
  induction s with
  | nil => simp [update_or_create]
  | cons e rest ih =>
    obtain ⟨k0, r⟩ := e
    simp only [List.map_cons, List.nodup_cons] at h
    by_cases hk : k0 = k
    · subst hk
      rw [show update_or_create ((k0, r) :: rest) k0 f
          = (k0, mergeFields r f) :: rest from by
        simp [update_or_create]]
      simpa using h
    · rw [show update_or_create ((k0, r) :: rest) k f
          = (k0, r) :: update_or_create rest k f from by
        simp [update_or_create, hk]]
      simp only [List.map_cons, List.nodup_cons]
      refine ⟨fun hmem => ?_, ih h.2⟩
      rcases mem_keys_update rest k k0 f hmem with h' | h'
      · exact h.1 h'
      · exact hk h'

theorem process_preserves_nodup_aux (c now : ℤ)
    (gs : List (ℤ × List (List Char × List Char))) (acc : ℕ × MetricStore)
    (h : (acc.2.map Prod.fst).Nodup) :
    (((gs.foldl (processGroup c now) acc).2).map Prod.fst).Nodup := by
  induction gs generalizing acc with
  | nil => exact h
  | cons g rest ih =>
    simp only [List.foldl_cons]
    apply ih
    unfold processGroup
    cases buildMetricFields g.2 with
    | ok f => exact nodup_keys_update _ _ _ h
    | error e => exact h

theorem process_preserves_nodup (c now : ℤ) (ms : List Measurement)
    (store : MetricStore) (h : (store.map Prod.fst).Nodup) :
    (((process_trickle_measurements c ms store now).2).map Prod.fst).Nodup :=
  process_preserves_nodup_aux c now (groupByTs ms) (0, store) h

end TrickleView
end XAT

namespace XAT
namespace TrickleView

/-- C7: upserting the same `(collector, timestamp)` key twice with identical
input is the same as upserting once (one stored row, identical field
values); on any store with unique keys the upserted key occupies exactly
one row, uniqueness of keys is preserved by the upsert, and hence by every
processed batch. -/
theorem claim_C7_upsert_idempotent :
    (∀ (s : MetricStore) (k : MetricKey) (f : MetricFields),
      update_or_create (update_or_create s k f) k f = update_or_create s k f)
    ∧ (∀ (s : MetricStore) (k : MetricKey) (f : MetricFields),
        (s.map Prod.fst).Nodup → countKey (update_or_create s k f) k = 1)
    ∧ (∀ (s : MetricStore) (k : MetricKey) (f : MetricFields),
        (s.map Prod.fst).Nodup → ((update_or_create s k f).map Prod.fst).Nodup)
    ∧ (∀ (c now : ℤ) (ms : List Measurement) (store : MetricStore),
        (store.map Prod.fst).Nodup →
        (((process_trickle_measurements c ms store now).2).map Prod.fst).Nodup) :=
  ⟨update_or_create_idem, countKey_update_nodup, nodup_keys_update,
   fun c now ms store h => process_preserves_nodup c now ms store h⟩

theorem claim_C7_witness :
    update_or_create (update_or_create [] ((1:ℤ), (5:ℤ)) emptyMetricFields)
        (1, 5) emptyMetricFields
      = update_or_create [] (1, 5) emptyMetricFields
    ∧ countKey (update_or_create [(((2:ℤ), (3:ℤ)), emptyMetricFields)]
        (1, 5) emptyMetricFields) (1, 5) = 1
    ∧ (((update_or_create [(((2:ℤ), (3:ℤ)), emptyMetricFields)]
        (1, 5) emptyMetricFields).map Prod.fst)).Nodup
    ∧ (((process_trickle_measurements 1 [⟨100, "x".toList, "".toList⟩] [] 0).2).map
        Prod.fst).Nodup :=
  ⟨claim_C7_upsert_idempotent.1 [] (1, 5) emptyMetricFields,
   claim_C7_upsert_idempotent.2.1 _ _ _ (by simp),
   claim_C7_upsert_idempotent.2.2.1 _ _ _ (by simp),
   claim_C7_upsert_idempotent.2.2.2 1 0 _ [] (by simp)⟩

end TrickleView
end XAT

namespace XAT
namespace TrickleView

theorem countActive_cons (s : Session) (rest : List Session) (c : ℤ) :
    countActive (s :: rest) c
      = (if (s.collector == c && s.status == SessionStatus.active) = true then 1 else 0)
        + countActive rest c := by
  by_cases h : (s.collector == c && s.status == SessionStatus.active) = true
  · simp only [countActive, List.filter_cons, h, if_pos, List.length_cons]
    omega
  · simp [countActive, List.filter_cons, h]

theorem countActive_append (l1 l2 : List Session) (c : ℤ) :
    countActive (l1 ++ l2) c = countActive l1 c + countActive l2 c := by
  simp [countActive, List.filter_append]

theorem countActive_eq_zero_of_not_hasActive (l : List Session) (c : ℤ)
    (h : hasActive l c = false) : countActive l c = 0 := by
  induction l with
  | nil => rfl
  | cons s rest ih =>
    simp only [hasActive, List.any_cons, Bool.or_eq_false_iff] at h
    rw [countActive_cons, if_neg (by simp [h.1]), ih h.2]

theorem countActive_updateFirstActive (l : List Session) (c c' : ℤ)
    (upd : Session → Session)
    (hcol : ∀ s, (upd s).collector = s.collector)
    (hst : ∀ s, (upd s).status = s.status) :
    countActive (updateFirstActive l c upd) c' = countActive l c' := by
  induction l with
  | nil => rfl
  | cons s rest ih =>
    by_cases h : (s.collector == c && s.status == SessionStatus.active) = true
    · simp only [updateFirstActive, if_pos h]
      rw [countActive_cons, countActive_cons]
      congr 2
      rw [hcol s, hst s]
    · simp only [updateFirstActive, if_neg h]
      rw [countActive_cons, countActive_cons, ih]

theorem countActive_updateCompleted_le (l : List Session) (c c' : ℤ)
    (upd : Session → Session)
    (hst : ∀ s, (upd s).status = SessionStatus.completed) :
    countActive (updateFirstActive l c upd) c' ≤ countActive l c' := by
  induction l with
  | nil => exact Nat.le_refl _
  | cons s rest ih =>
    by_cases h : (s.collector == c && s.status == SessionStatus.active) = true
    · simp only [updateFirstActive, if_pos h]
      rw [countActive_cons, countActive_cons]
      have h2 : ((upd s).collector == c' && (upd s).status == SessionStatus.active) = false := by
        rw [hst s, show (SessionStatus.completed == SessionStatus.active) = false from by decide,
          Bool.and_false]
      rw [h2]
      simp
    · simp only [updateFirstActive, if_neg h]
      rw [countActive_cons, countActive_cons]
      exact Nat.add_le_add_left ih _

theorem countActive_map_le (l : List Session) (c' : ℤ) (f : Session → Session)
    (hf : ∀ s, f s = s ∨ (f s).status = SessionStatus.completed) :
    countActive (l.map f) c' ≤ countActive l c' := by
  induction l with
  | nil => exact Nat.le_refl _
  | cons s rest ih =>
    rw [List.map_cons, countActive_cons, countActive_cons]
    rcases hf s with h | h
    · rw [h]
      exact Nat.add_le_add_left ih _
    · have h2 : ((f s).collector == c' && (f s).status == SessionStatus.active) = false := by
        rw [h, show (SessionStatus.completed == SessionStatus.active) = false from by decide,
          Bool.and_false]
      rw [h2]
      simp only [Bool.false_eq_true, if_false, Nat.zero_add]
      calc countActive (rest.map f) c' ≤ countActive rest c' := ih
        _ ≤ _ + countActive rest c' := Nat.le_add_left _ _

theorem countActive_post_upd (l : List Session) (c c' now : ℤ) (n : ℕ) :
    countActive (updateFirstActive l c (fun s =>
      { s with last_data_at := some now, sample_count := s.sample_count + n })) c'
      = countActive l c' :=
  countActive_updateFirstActive l c c'
    (fun s => { s with last_data_at := some now, sample_count := s.sample_count + n })
    (fun _ => rfl) (fun _ => rfl)

theorem countActive_post (st : PipeState) (c : ℤ) (ms : List Measurement)
    (now : ℤ) (c' : ℤ) (hinv : countActive st.sessions c' ≤ 1) :
    countActive ((post st c ms now).sessions) c' ≤ 1 := by
  unfold post
  by_cases hms : ms = []
  · rw [if_pos hms]
    exact hinv
  · rw [if_neg hms]
    dsimp only
    refine le_trans (le_of_eq (countActive_post_upd _ _ _ _ _)) ?_
    unfold getOrCreateActive
    by_cases hact : hasActive st.sessions c = true
    · rw [if_pos hact]
      exact hinv
    · rw [if_neg hact]
      rw [countActive_append]
      rw [Bool.not_eq_true] at hact
      by_cases hcc : c = c'
      · subst hcc
        rw [countActive_eq_zero_of_not_hasActive _ _ hact]
        rw [countActive_cons]
        simp [show (SessionStatus.active == SessionStatus.active) = true from by decide,
          show countActive ([] : List Session) c = 0 from rfl]
      · rw [countActive_cons]
        have h1 : ((c:ℤ) == c') = false := by simpa using hcc
        rw [h1, Bool.false_and, if_neg (by simp)]
        simp only [show countActive ([] : List Session) c' = 0 from rfl]
        omega

theorem length_updateFirstActive (l : List Session) (c : ℤ) (upd : Session → Session) :
    (updateFirstActive l c upd).length = l.length := by
  induction l with
  | nil => rfl
  | cons s rest ih =>
    by_cases h : (s.collector == c && s.status == SessionStatus.active) = true
    · simp [updateFirstActive, h]
    · simp [updateFirstActive, h, ih]

end TrickleView
end XAT

namespace XAT
namespace TrickleView

theorem post_length_reuse (st : PipeState) (c : ℤ) (ms : List Measurement)
    (now : ℤ) (hms : ms ≠ []) (hact : hasActive st.sessions c = true) :
    (post st c ms now).sessions.length = st.sessions.length := by
  unfold post
  rw [if_neg hms]
  dsimp only
  rw [length_updateFirstActive]
  unfold getOrCreateActive
  rw [if_pos hact]

theorem post_length_create (st : PipeState) (c : ℤ) (ms : List Measurement)
    (now : ℤ) (hms : ms ≠ []) (hact : hasActive st.sessions c = false) :
    (post st c ms now).sessions.length = st.sessions.length + 1 := by
  unfold post
  rw [if_neg hms]
  dsimp only
  rw [length_updateFirstActive]
  unfold getOrCreateActive
  rw [if_neg (by simp [hact]), List.length_append]
  rfl

/-- C8: in every reachable state there is at most one ACTIVE session per
collector; a nonempty batch reuses the existing ACTIVE session (no new row)
and creates one only when none exists; and in scenario E a first batch
creates an ACTIVE session with `sample_count = 1`, which the inactivity
sweep later completes with `ended_at = last_data_at`. -/
theorem claim_C8_session_invariant :
    (∀ st, Reachable st → ∀ c, countActive st.sessions c ≤ 1)
    ∧ (∀ (st : PipeState) (c : ℤ) (ms : List Measurement) (now : ℤ),
        ms ≠ [] → hasActive st.sessions c = true →
        (post st c ms now).sessions.length = st.sessions.length)
    ∧ (∀ (st : PipeState) (c : ℤ) (ms : List Measurement) (now : ℤ),
        ms ≠ [] → hasActive st.sessions c = false →
        (post st c ms now).sessions.length = st.sessions.length + 1)
    ∧ (post initState 1 [⟨100, "x".toList, "".toList⟩] 100).sessions
        = [⟨1, .active, 100, some 100, none, 1⟩]
    ∧ (sweepInactive (post initState 1 [⟨100, "x".toList, "".toList⟩] 100) 400 2).sessions
        = [⟨1, .completed, 100, some 100, some 100, 1⟩] := by
  refine ⟨?_, post_length_reuse, post_length_create, by decide, by decide⟩
  intro st h
  induction h with
  | init =>
    intro c
    exact Nat.zero_le 1
  | step hr hstep ih =>
    cases hstep with
    | trickle c ms now =>
      intro c'
      exact countActive_post _ c ms now c' (ih c')
    | sweep now tm =>
      intro c'
      unfold sweepInactive
      dsimp only
      refine le_trans (countActive_map_le _ _ _ ?_) (ih c')
      intro s
      dsimp only
      split_ifs with h
      · right
        rfl
      · left
        rfl
    | complete c now =>
      intro c'
      unfold completeSession
      dsimp only
      exact le_trans (countActive_updateCompleted_le _ _ _ _ (fun s => rfl)) (ih c')

theorem claim_C8_witness :
    countActive initState.sessions 7 ≤ 1
    ∧ (post { sessions := [⟨7, .active, 0, none, none, 0⟩], store := [] } 7
        [⟨100, "x".toList, "".toList⟩] 100).sessions.length = 1
    ∧ (post initState 7 [⟨100, "x".toList, "".toList⟩] 100).sessions.length = 0 + 1 :=
  ⟨claim_C8_session_invariant.1 initState Reachable.init 7,
   claim_C8_session_invariant.2.1 _ 7 _ 100 (by decide) (by decide),
   claim_C8_session_invariant.2.2.1 initState 7 _ 100 (by decide) (by decide)⟩

end TrickleView
end XAT

namespace XAT
namespace TrickleView

/-- The four subsystem strings the pipeline recognizes. -/
def recognizedSubsystems : List (List Char) :=
  ["/proc/stat".toList, "/proc/meminfo".toList, "/proc/diskstats".toList,
   "/proc/net/dev".toList]

theorem lookupSub_eq_none (subs : List (List Char × List Char)) (k : List Char)
    (h : ∀ e ∈ subs, e.1 ≠ k) : lookupSub subs k = none := by
  induction subs with
  | nil => rfl
  | cons e rest ih =>
    obtain ⟨k', v⟩ := e
    have h1 : k' ≠ k := h (k', v) (List.mem_cons_self _ _)
    simp only [lookupSub, if_neg h1]
    exact ih (fun e he => h e (List.mem_cons_of_mem _ he))

theorem buildMetricFields_unrecognized (subs : List (List Char × List Char))
    (h : ∀ e ∈ subs, e.1 ∉ recognizedSubsystems) :
    buildMetricFields subs = .ok emptyMetricFields := by
  have h1 : lookupSub subs ("/proc/stat".toList) = none :=
    lookupSub_eq_none _ _ (fun e he heq =>
      h e he (heq ▸ (by simp [recognizedSubsystems])))
  have h2 : lookupSub subs ("/proc/meminfo".toList) = none :=
    lookupSub_eq_none _ _ (fun e he heq =>
      h e he (heq ▸ (by simp [recognizedSubsystems])))
  have h3 : lookupSub subs ("/proc/diskstats".toList) = none :=
    lookupSub_eq_none _ _ (fun e he heq =>
      h e he (heq ▸ (by simp [recognizedSubsystems])))
  have h4 : lookupSub subs ("/proc/net/dev".toList) = none :=
    lookupSub_eq_none _ _ (fun e he heq =>
      h e he (heq ▸ (by simp [recognizedSubsystems])))
  simp only [buildMetricFields, h1, h2, h3, h4]
  rfl

theorem assocSet_subs {S : List Char → Prop} (l : List (List Char × List Char))
    (k v : List Char) (hk : S k) (hl : ∀ e ∈ l, S e.1) :
    ∀ e ∈ assocSet l k v, S e.1 := by
  induction l with
  | nil =>
    intro e he
    simp only [assocSet, List.mem_singleton] at he
    rw [he]
    exact hk
  | cons e0 rest ih =>
    obtain ⟨k0, v0⟩ := e0
    intro e he
    by_cases h : k0 = k
    · simp only [assocSet, if_pos h, List.mem_cons] at he
      rcases he with he | he
      · rw [he]; exact hk
      · exact hl e (List.mem_cons_of_mem _ he)
    · simp only [assocSet, if_neg h, List.mem_cons] at he
      rcases he with he | he
      · rw [he]; exact hl (k0, v0) (List.mem_cons_self _ _)
      · exact ih (fun e' he' => hl e' (List.mem_cons_of_mem _ he')) e he

theorem tsInsert_subs {S : List Char → Prop}
    (g : List (ℤ × List (List Char × List Char))) (ts : ℤ) (sub txt : List Char)
    (hsub : S sub) (hg : ∀ p ∈ g, ∀ e ∈ p.2, S e.1) :
    ∀ p ∈ tsInsert g ts sub txt, ∀ e ∈ p.2, S e.1 := by
  induction g with
  | nil =>
    intro p hp e he
    simp only [tsInsert, List.mem_singleton] at hp
    rw [hp] at he
    simp only [List.mem_singleton] at he
    rw [he]
    exact hsub
  | cons p0 rest ih =>
    obtain ⟨t, m⟩ := p0
    intro p hp e he
    by_cases h : t = ts
    · simp only [tsInsert, if_pos h, List.mem_cons] at hp
      rcases hp with hp | hp
      · rw [hp] at he
        exact assocSet_subs m sub txt hsub
          (fun e' he' => hg (t, m) (List.mem_cons_self _ _) e' he') e he
      · exact hg p (List.mem_cons_of_mem _ hp) e he
    · simp only [tsInsert, if_neg h, List.mem_cons] at hp
      rcases hp with hp | hp
      · rw [hp] at he
        exact hg (t, m) (List.mem_cons_self _ _) e he
      · exact ih (fun p' hp' => hg p' (List.mem_cons_of_mem _ hp')) p hp e he

theorem foldl_tsInsert_subs {S : List Char → Prop} :
    ∀ (ms : List Measurement) (acc : List (ℤ × List (List Char × List Char))),
      (∀ m ∈ ms, S m.subsystem) →
      (∀ g ∈ acc, ∀ e ∈ g.2, S e.1) →
      ∀ g ∈ ms.foldl (fun g m => tsInsert g m.timestamp m.subsystem m.measurement) acc,
        ∀ e ∈ g.2, S e.1
  | [], acc, _, hacc => by simpa using hacc
  | m :: rest, acc, hms, hacc => by
    simp only [List.foldl_cons]
    exact foldl_tsInsert_subs rest _
      (fun m' h' => hms m' (List.mem_cons_of_mem _ h'))
      (tsInsert_subs acc m.timestamp m.subsystem m.measurement
        (hms m (List.mem_cons_self _ _)) hacc)

theorem groupByTs_subs_from {S : List Char → Prop} (ms : List Measurement)
    (hS : ∀ m ∈ ms, S m.subsystem) :
    ∀ g ∈ groupByTs ms, ∀ e ∈ g.2, S e.1 :=
  foldl_tsInsert_subs ms [] hS (by simp)

theorem foldl_processGroup_count (c now : ℤ) :
    ∀ (gs : List (ℤ × List (List Char × List Char))) (acc : ℕ × MetricStore),
      (∀ g ∈ gs, ∃ f, buildMetricFields g.2 = .ok f) →
      (gs.foldl (processGroup c now) acc).1 = acc.1 + gs.length
  | [], acc, _ => by simp
  | g :: rest, acc, h => by
    simp only [List.foldl_cons]
    rw [foldl_processGroup_count c now rest _
      (fun g' h' => h g' (List.mem_cons_of_mem _ h'))]
    obtain ⟨f, hf⟩ := h g (List.mem_cons_self _ _)
    unfold processGroup
    rw [hf]
    simp only [List.length_cons]
    omega

theorem lookupKey_update_self (s : MetricStore) (k : MetricKey) (f : MetricFields) :
    lookupKey (update_or_create s k f) k
      = some (match lookupKey s k with
              | some r => mergeFields r f
              | none => f) := by
  induction s with
  | nil => simp [update_or_create, lookupKey]
  | cons e rest ih =>
    obtain ⟨k0, r⟩ := e
    by_cases hk : k0 = k
    · subst hk
      rw [show update_or_create ((k0, r) :: rest) k0 f
          = (k0, mergeFields r f) :: rest from by simp [update_or_create]]
      simp [lookupKey]
    · rw [show update_or_create ((k0, r) :: rest) k f
          = (k0, r) :: update_or_create rest k f from by simp [update_or_create, hk],
        show lookupKey ((k0, r) :: rest) k = lookupKey rest k from by
          simp [lookupKey, hk],
        show lookupKey ((k0, r) :: update_or_create rest k f) k
          = lookupKey (update_or_create rest k f) k from by simp [lookupKey, hk]]
      exact ih

theorem lookupKey_update_other (s : MetricStore) (k k' : MetricKey)
    (f : MetricFields) (h : k' ≠ k) :
    lookupKey (update_or_create s k f) k' = lookupKey s k' := by
  induction s with
  | nil =>
    simp only [update_or_create, lookupKey]
    rw [if_neg (fun he => h he.symm)]
  | cons e rest ih =>
    obtain ⟨k0, r⟩ := e
    by_cases hk : k0 = k
    · subst hk
      rw [show update_or_create ((k0, r) :: rest) k0 f
          = (k0, mergeFields r f) :: rest from by simp [update_or_create]]
      by_cases hk0 : k0 = k'
      · exact absurd hk0.symm h
      · simp [lookupKey, hk0]
    · rw [show update_or_create ((k0, r) :: rest) k f
          = (k0, r) :: update_or_create rest k f from by simp [update_or_create, hk]]
      by_cases hk0 : k0 = k'
      · simp [lookupKey, hk0]
      · simp only [lookupKey, if_neg hk0]
        exact ih

end TrickleView
end XAT

namespace XAT
namespace TrickleView

theorem foldl_keeps_some_empty (c now : ℤ) :
    ∀ (gs : List (ℤ × List (List Char × List Char))) (acc : ℕ × MetricStore)
      (k : MetricKey),
      (∀ g ∈ gs, buildMetricFields g.2 = .ok emptyMetricFields) →
      lookupKey acc.2 k = some emptyMetricFields →
      lookupKey (gs.foldl (processGroup c now) acc).2 k = some emptyMetricFields
  | [], acc, k, _, hacc => hacc
  | g :: rest, acc, k, hgs, hacc => by
    simp only [List.foldl_cons]
    apply foldl_keeps_some_empty c now rest _ k
      (fun g' h' => hgs g' (List.mem_cons_of_mem _ h'))
    unfold processGroup
    rw [hgs g (List.mem_cons_self _ _)]
    by_cases hk : (c, if g.1 = 0 then now else g.1) = k
    · rw [hk, lookupKey_update_self, hacc]
      rfl
    · rw [lookupKey_update_other _ _ _ _ (fun he => hk he.symm)]
      exact hacc

theorem foldl_empty_hit (c now : ℤ) :
    ∀ (gs : List (ℤ × List (List Char × List Char))) (acc : ℕ × MetricStore)
      (k : MetricKey),
      (∀ g ∈ gs, buildMetricFields g.2 = .ok emptyMetricFields) →
      (lookupKey acc.2 k = none ∨ lookupKey acc.2 k = some emptyMetricFields) →
      (∃ g ∈ gs, (c, if g.1 = 0 then now else g.1) = k) →
      lookupKey (gs.foldl (processGroup c now) acc).2 k = some emptyMetricFields
  | [], _, _, _, _, hhit => by simp at hhit
  | g :: rest, acc, k, hgs, hacc, hhit => by
    simp only [List.foldl_cons]
    by_cases hk : (c, if g.1 = 0 then now else g.1) = k
    · apply foldl_keeps_some_empty c now rest _ k
        (fun g' h' => hgs g' (List.mem_cons_of_mem _ h'))
      unfold processGroup
      rw [hgs g (List.mem_cons_self _ _), hk, lookupKey_update_self]
      rcases hacc with hacc | hacc
      · rw [hacc]
      · rw [hacc]
        rfl
    · apply foldl_empty_hit c now rest _ k
        (fun g' h' => hgs g' (List.mem_cons_of_mem _ h'))
      · unfold processGroup
        rw [hgs g (List.mem_cons_self _ _),
          lookupKey_update_other _ _ _ _ (fun he => hk he.symm)]
        exact hacc
      · obtain ⟨g', hg', hkey⟩ := hhit
        rcases List.mem_cons.mp hg' with he | he
        · exact absurd (he ▸ hkey) hk
        · exact ⟨g', he, hkey⟩

theorem mem_keys_tsInsert (g : List (ℤ × List (List Char × List Char)))
    (ts : ℤ) (sub txt : List Char) (ts' : ℤ) (h : ts' ∈ g.map Prod.fst) :
    ts' ∈ (tsInsert g ts sub txt).map Prod.fst := by
  induction g with
  | nil => simp at h
  | cons p rest ih =>
    obtain ⟨t, m⟩ := p
    simp only [List.map_cons, List.mem_cons] at h
    by_cases ht : t = ts
    · simp only [tsInsert, if_pos ht, List.map_cons, List.mem_cons]
      exact h
    · simp only [tsInsert, if_neg ht, List.map_cons, List.mem_cons]
      rcases h with h | h
      · exact Or.inl h
      · exact Or.inr (ih h)

theorem self_mem_keys_tsInsert (g : List (ℤ × List (List Char × List Char)))
    (ts : ℤ) (sub txt : List Char) :
    ts ∈ (tsInsert g ts sub txt).map Prod.fst := by
  induction g with
  | nil => simp [tsInsert]
  | cons p rest ih =>
    obtain ⟨t, m⟩ := p
    by_cases ht : t = ts
    · simp [tsInsert, if_pos ht, ht]
    · simp only [tsInsert, if_neg ht, List.map_cons, List.mem_cons]
      exact Or.inr ih

theorem foldl_tsInsert_keeps_keys :
    ∀ (ms : List Measurement) (acc : List (ℤ × List (List Char × List Char)))
      (ts' : ℤ), ts' ∈ acc.map Prod.fst →
      ts' ∈ (ms.foldl (fun g m => tsInsert g m.timestamp m.subsystem m.measurement)
        acc).map Prod.fst
  | [], _, _, h => h
  | m :: rest, acc, ts', h => by
    simp only [List.foldl_cons]
    exact foldl_tsInsert_keeps_keys rest _ ts' (mem_keys_tsInsert _ _ _ _ _ h)

theorem mem_ts_groupByTs :
    ∀ (ms : List Measurement) (acc : List (ℤ × List (List Char × List Char)))
      (m : Measurement), m ∈ ms →
      m.timestamp ∈ (ms.foldl
        (fun g m => tsInsert g m.timestamp m.subsystem m.measurement) acc).map Prod.fst
  | [], _, _, hm => by simp at hm
  | m0 :: rest, acc, m, hm => by
    simp only [List.foldl_cons]
    rcases List.mem_cons.mp hm with he | he
    · subst he
      exact foldl_tsInsert_keeps_keys rest _ _ (self_mem_keys_tsInsert acc _ _ _)
    · exact mem_ts_groupByTs rest _ m he

theorem hasActive_of_firstActive (l : List Session) (c : ℤ) (s : Session)
    (h : firstActive l c = some s) : hasActive l c = true := by
  induction l with
  | nil => simp [firstActive] at h
  | cons s0 rest ih =>
    by_cases h0 : (s0.collector == c && s0.status == SessionStatus.active) = true
    · simp [hasActive, List.any_cons, h0]
    · simp only [firstActive, if_neg h0] at h
      simp only [hasActive, List.any_cons, Bool.or_eq_true]
      exact Or.inr (ih h)

theorem firstActive_updateFirstActive (l : List Session) (c : ℤ)
    (upd : Session → Session)
    (hcol : ∀ s, (upd s).collector = s.collector)
    (hst : ∀ s, (upd s).status = s.status) :
    firstActive (updateFirstActive l c upd) c = (firstActive l c).map upd := by
  induction l with
  | nil => rfl
  | cons s0 rest ih =>
    by_cases h0 : (s0.collector == c && s0.status == SessionStatus.active) = true
    · simp only [updateFirstActive, if_pos h0, firstActive]
      rw [if_pos (by rw [hcol s0, hst s0]; exact h0)]
      rfl
    · simp only [updateFirstActive, if_neg h0, firstActive, if_neg h0]
      exact ih

end TrickleView
end XAT

namespace XAT
namespace TrickleView

/-- C10: a batch whose subsystems are all unrecognized still produces one
stored row per distinct timestamp (every metric column null on a fresh
key), the returned `metrics_count` equals the number of distinct timestamp
groups, and the ACTIVE session's `sample_count` grows by exactly that
number. -/
theorem claim_C10_unrecognized (c now : ℤ) (ms : List Measurement)
    (store : MetricStore) (st : PipeState)
    (hsub : ∀ m ∈ ms, m.subsystem ∉ recognizedSubsystems) :
    (process_trickle_measurements c ms store now).1 = (groupByTs ms).length
    ∧ (∀ ts : ℤ, ts ≠ 0 → (∃ m ∈ ms, m.timestamp = ts) →
        lookupKey store (c, ts) = none →
        lookupKey ((process_trickle_measurements c ms store now).2) (c, ts)
          = some emptyMetricFields)
    ∧ (∀ s : Session, ms ≠ [] → firstActive st.sessions c = some s →
        firstActive ((post st c ms now).sessions) c
          = some { s with last_data_at := some now,
                          sample_count := s.sample_count + (groupByTs ms).length }) := by
  have hok : ∀ g ∈ groupByTs ms, buildMetricFields g.2 = .ok emptyMetricFields :=
    fun g hg => buildMetricFields_unrecognized _
      (@groupByTs_subs_from (fun k => k ∉ recognizedSubsystems) ms hsub g hg)
  have hcount : ∀ s0 : MetricStore,
      (process_trickle_measurements c ms s0 now).1 = (groupByTs ms).length := by
    intro s0
    have := foldl_processGroup_count c now (groupByTs ms) (0, s0)
      (fun g hg => ⟨_, hok g hg⟩)
    simpa [process_trickle_measurements] using this
  refine ⟨hcount store, ?_, ?_⟩
  · intro ts hts hmem hfresh
    apply foldl_empty_hit c now (groupByTs ms) (0, store) (c, ts) hok (Or.inl hfresh)
    obtain ⟨m, hm, hts'⟩ := hmem
    have hk : m.timestamp ∈ (groupByTs ms).map Prod.fst := mem_ts_groupByTs ms [] m hm
    obtain ⟨g, hg, hgts⟩ := List.mem_map.mp hk
    refine ⟨g, hg, ?_⟩
    rw [hgts, hts', if_neg hts]
  · intro s hms hfa
    unfold post
    rw [if_neg hms]
    dsimp only
    unfold getOrCreateActive
    rw [if_pos (hasActive_of_firstActive _ _ _ hfa)]
    have hfu := firstActive_updateFirstActive st.sessions c
      (fun s =>
        { s with
          last_data_at := some now
          sample_count := s.sample_count
            + (process_trickle_measurements c ms st.store now).1 })
      (fun _ => rfl) (fun _ => rfl)
    rw [hfu, hfa, Option.map_some']
    rw [hcount st.store]

theorem claim_C10_witness :
    (process_trickle_measurements 1
      [⟨100, "a".toList, "".toList⟩, ⟨100, "b".toList, "".toList⟩,
       ⟨200, "c".toList, "".toList⟩] [] 0).1 = 2
    ∧ lookupKey ((process_trickle_measurements 1
        [⟨100, "a".toList, "".toList⟩, ⟨100, "b".toList, "".toList⟩,
         ⟨200, "c".toList, "".toList⟩] [] 0).2) (1, 100) = some emptyMetricFields
    ∧ firstActive ((post { sessions := [⟨1, .active, 0, none, none, 5⟩], store := [] } 1
        [⟨100, "a".toList, "".toList⟩, ⟨100, "b".toList, "".toList⟩,
         ⟨200, "c".toList, "".toList⟩] 0).sessions) 1
      = some ⟨1, .active, 0, some 0, none, 7⟩ := by
  have base := claim_C10_unrecognized 1 0
    [⟨100, "a".toList, "".toList⟩, ⟨100, "b".toList, "".toList⟩,
     ⟨200, "c".toList, "".toList⟩] []
    { sessions := [⟨1, .active, 0, none, none, 5⟩], store := [] } (by decide)
  exact ⟨base.1,
    base.2.1 100 (by decide) ⟨⟨100, "a".toList, "".toList⟩, by decide, rfl⟩ rfl,
    base.2.2 ⟨1, .active, 0, none, none, 5⟩ (by decide) (by decide)⟩

end TrickleView
end XAT

namespace XAT
namespace TrickleView

theorem buildMetricFields_stat_only (stat : List Char) (cp : CpuParsed)
    (hcp : parse_proc_stat stat = .ok (some cp)) :
    buildMetricFields [("/proc/stat".toList, stat)]
      = .ok (setCpu emptyMetricFields cp) := by
  have l1 : lookupSub [("/proc/stat".toList, stat)] ("/proc/stat".toList)
      = some stat := by
    simp [lookupSub]
  have l2 : lookupSub [("/proc/stat".toList, stat)] ("/proc/meminfo".toList)
      = none := by
    simp only [lookupSub]
    rw [if_neg (by decide)]
  have l3 : lookupSub [("/proc/stat".toList, stat)] ("/proc/diskstats".toList)
      = none := by
    simp only [lookupSub]
    rw [if_neg (by decide)]
  have l4 : lookupSub [("/proc/stat".toList, stat)] ("/proc/net/dev".toList)
      = none := by
    simp only [lookupSub]
    rw [if_neg (by decide)]
  simp only [buildMetricFields, l1, l2, l3, l4, hcp]
  rfl

theorem buildMetricFields_stat_mem (stat mem : List Char) (cp : CpuParsed)
    (mp : MemParsed) (hcp : parse_proc_stat stat = .ok (some cp))
    (hmp : parse_meminfo mem = some mp) :
    buildMetricFields [("/proc/stat".toList, stat), ("/proc/meminfo".toList, mem)]
      = .ok (setMem (setCpu emptyMetricFields cp) mp) := by
  have l1 : lookupSub [("/proc/stat".toList, stat), ("/proc/meminfo".toList, mem)]
      ("/proc/stat".toList) = some stat := by
    simp [lookupSub]
  have l2 : lookupSub [("/proc/stat".toList, stat), ("/proc/meminfo".toList, mem)]
      ("/proc/meminfo".toList) = some mem := by
    simp only [lookupSub]
    rw [if_neg (by decide)]
    simp
  have l3 : lookupSub [("/proc/stat".toList, stat), ("/proc/meminfo".toList, mem)]
      ("/proc/diskstats".toList) = none := by
    simp only [lookupSub]
    rw [if_neg (by decide), if_neg (by decide)]
  have l4 : lookupSub [("/proc/stat".toList, stat), ("/proc/meminfo".toList, mem)]
      ("/proc/net/dev".toList) = none := by
    simp only [lookupSub]
    rw [if_neg (by decide), if_neg (by decide)]
  simp only [buildMetricFields, l1, l2, l3, l4, hcp, hmp]
  rfl

theorem groupByTs_two_same_ts (ts : ℤ) (s1 s2 t1 t2 : List Char) (hne : s1 ≠ s2) :
    groupByTs [⟨ts, s1, t1⟩, ⟨ts, s2, t2⟩] = [(ts, [(s1, t1), (s2, t2)])] := by
  simp [groupByTs, tsInsert, assocSet, hne]

/-- C2 (amended): ingesting a first batch (fresh `(collector, timestamp)`
key) carrying `/proc/stat` and `/proc/meminfo` text stores a row whose five
CPU percentage columns are computed *directly from the cumulative
counters* (non-null given parseable text — there is no delta pipeline and
no previous-snapshot dependence), whose memory columns are non-null, and
whose disk/network columns (cumulative counters, not rates — the row has no
rate columns at all) stay null because those subsystems are absent. -/
theorem claim_C2_first_batch_amended (ts c now : ℤ) (store : MetricStore)
    (stat mem : List Char) (cp : CpuParsed) (mp : MemParsed)
    (hts : ts ≠ 0) (hfresh : lookupKey store (c, ts) = none)
    (hcp : parse_proc_stat stat = .ok (some cp))
    (hmp : parse_meminfo mem = some mp) :
    ∃ f, lookupKey ((process_trickle_measurements c
          [⟨ts, "/proc/stat".toList, stat⟩, ⟨ts, "/proc/meminfo".toList, mem⟩]
          store now).2) (c, ts) = some f
      ∧ f.cpu_user = some cp.cpu_user ∧ f.cpu_system = some cp.cpu_system
      ∧ f.cpu_iowait = some cp.cpu_iowait ∧ f.cpu_idle = some cp.cpu_idle
      ∧ f.cpu_steal = some cp.cpu_steal
      ∧ f.mem_total = some mp.mem_total ∧ f.mem_used = some mp.mem_used
      ∧ f.mem_available = some mp.mem_available
      ∧ f.mem_buffers = some mp.mem_buffers ∧ f.mem_cached = some mp.mem_cached
      ∧ f.disk_read_bytes = none ∧ f.disk_write_bytes = none
      ∧ f.disk_read_ops = none ∧ f.disk_write_ops = none
      ∧ f.net_rx_bytes = none ∧ f.net_tx_bytes = none
      ∧ f.net_rx_packets = none ∧ f.net_tx_packets = none := by
  refine ⟨setMem (setCpu emptyMetricFields cp) mp, ?_, rfl, rfl, rfl, rfl, rfl,
    rfl, rfl, rfl, rfl, rfl, rfl, rfl, rfl, rfl, rfl, rfl, rfl, rfl⟩
  rw [process_trickle_measurements,
    groupByTs_two_same_ts ts _ _ stat mem (by decide)]
  simp only [List.foldl_cons, List.foldl_nil, processGroup,
    buildMetricFields_stat_mem stat mem cp mp hcp hmp]
  rw [if_neg hts, lookupKey_update_self, hfresh]

end TrickleView
end XAT

namespace XAT
namespace TrickleView

theorem parse_stat_sample :
    parse_proc_stat ("cpu  50 0 0 50 0 0 0 0".toList)
      = .ok (some (cpuPercentages ⟨50, 0, 0, 50, 0, 0, 0, 0⟩)) := by
  rw [parse_proc_stat, if_neg (by decide),
    show parse_stat_jiffies (splitOnChar '\n' ("cpu  50 0 0 50 0 0 0 0".toList))
      = .ok (some ⟨50, 0, 0, 50, 0, 0, 0, 0⟩) from by decide]
  rfl

theorem cpuPercentages_sample :
    cpuPercentages ⟨50, 0, 0, 50, 0, 0, 0, 0⟩ = ⟨50, 0, 0, 50, 0⟩ := by
  norm_num [cpuPercentages, pyRound, pyRoundInt]

theorem parse_meminfo_sample :
    parse_meminfo ("MemTotal: 2048 kB\nMemAvailable: 1024 kB".toList)
      = some ⟨2, 1, 1, 0, 0⟩ := by
  rw [parse_meminfo,
    show meminfo_numbers ("MemTotal: 2048 kB\nMemAvailable: 1024 kB".toList)
      = some (2048, 1024, 0, 0) from by decide,
    Option.map_some']
  norm_num [memOutput, pyRound, pyRoundInt]

/-- C2 counterexample: a *first* batch (empty store, no session state at
all) whose `/proc/stat` text is valid stores `cpu_user = 50.0`, not null:
the stored CPU fields are cumulative since-boot ratios, not deltas, so the
claimed first-sample nullability is false on this code. -/
theorem claim_C2_counterexample :
    (lookupKey ((process_trickle_measurements 1
        [⟨100, "/proc/stat".toList, "cpu  50 0 0 50 0 0 0 0".toList⟩] [] 0).2)
      (1, 100)).map (fun f => f.cpu_user) = some (some 50)
    ∧ some (50:ℚ) ≠ (none : Option ℚ) := by
  constructor
  · have hcp : parse_proc_stat ("cpu  50 0 0 50 0 0 0 0".toList)
        = .ok (some ⟨50, 0, 0, 50, 0⟩) := by
      rw [parse_stat_sample, cpuPercentages_sample]
    have hb := buildMetricFields_stat_only ("cpu  50 0 0 50 0 0 0 0".toList)
      ⟨50, 0, 0, 50, 0⟩ hcp
    rw [process_trickle_measurements,
      show groupByTs [⟨100, "/proc/stat".toList, "cpu  50 0 0 50 0 0 0 0".toList⟩]
        = [(100, [("/proc/stat".toList, "cpu  50 0 0 50 0 0 0 0".toList)])] from rfl]
    simp only [List.foldl_cons, List.foldl_nil, processGroup, hb]
    rw [if_neg (by decide), lookupKey_update_self]
    rfl
  · simp

theorem claim_C2_witness :
    ∃ f, lookupKey ((process_trickle_measurements 1
          [⟨100, "/proc/stat".toList, "cpu  50 0 0 50 0 0 0 0".toList⟩,
           ⟨100, "/proc/meminfo".toList,
            "MemTotal: 2048 kB\nMemAvailable: 1024 kB".toList⟩] [] 0).2) (1, 100)
        = some f
      ∧ f.cpu_user = some 50 ∧ f.cpu_system = some 0
      ∧ f.cpu_iowait = some 0 ∧ f.cpu_idle = some 50
      ∧ f.cpu_steal = some 0
      ∧ f.mem_total = some 2 ∧ f.mem_used = some 1
      ∧ f.mem_available = some 1
      ∧ f.mem_buffers = some 0 ∧ f.mem_cached = some 0
      ∧ f.disk_read_bytes = none ∧ f.disk_write_bytes = none
      ∧ f.disk_read_ops = none ∧ f.disk_write_ops = none
      ∧ f.net_rx_bytes = none ∧ f.net_tx_bytes = none
      ∧ f.net_rx_packets = none ∧ f.net_tx_packets = none :=
  claim_C2_first_batch_amended 100 1 0 [] _ _ ⟨50, 0, 0, 50, 0⟩ ⟨2, 1, 1, 0, 0⟩
    (by decide) rfl
    (by rw [parse_stat_sample, cpuPercentages_sample]) parse_meminfo_sample

end TrickleView
end XAT

namespace XAT
namespace TrickleView

theorem parse_stat_jiffies_no_cpu_line (lines : List (List Char))
    (h : ∀ line ∈ lines, leadsWith ("cpu ".toList) line = false) :
    parse_stat_jiffies lines = .ok none := by
  induction lines with
  | nil => rfl
  | cons line rest ih =>
    rw [parse_stat_jiffies]
    rw [if_neg (by simpa using h line (List.mem_cons_self _ _))]
    exact ih (fun l hl => h l (List.mem_cons_of_mem _ hl))

/-- C9 (amended): `_parse_proc_stat` locates the aggregate line by the
prefix `"cpu "` (per-core `cpuN` lines never match, and with no such line
the result is `None`); an accepted line needs at least 8 whitespace tokens,
i.e. at least **7** numeric fields — `steal` defaults to 0 when only 7 are
present — and tokens beyond the 9th are ignored; a `"cpu "` line with fewer
tokens is skipped and scanning continues; but a non-numeric token on an
accepted line **raises** ValueError (caught by the caller, which then skips
the whole timestamp group), so "never throws" is false. -/
theorem claim_C9_parse_proc_stat_amended :
    (∀ txt : List Char,
      (∀ line ∈ splitOnChar '\n' txt, leadsWith ("cpu ".toList) line = false) →
      parse_proc_stat txt = .ok none)
    ∧ parse_proc_stat ("cpu0 1 2 3 4 5 6 7 8".toList) = .ok none
    ∧ parse_proc_stat ("cpu 1 2 3 4 5 6 7".toList)
        = .ok (some (cpuPercentages ⟨1, 2, 3, 4, 5, 6, 7, 0⟩))
    ∧ parse_proc_stat ("cpu a b c d e f g h".toList) = .error ()
    ∧ parse_proc_stat ("cpu 1 2\ncpu 10 0 0 10 0 0 0 0".toList)
        = .ok (some (cpuPercentages ⟨10, 0, 0, 10, 0, 0, 0, 0⟩))
    ∧ parse_proc_stat ("cpu 1 2 3 4 5 6 7 8 99 98".toList)
        = .ok (some (cpuPercentages ⟨1, 2, 3, 4, 5, 6, 7, 8⟩)) := by
  refine ⟨?_, by decide, ?_, by decide, ?_, ?_⟩
  · intro txt h
    rw [parse_proc_stat]
    by_cases he : txt = []
    · rw [if_pos he]
    · rw [if_neg he, parse_stat_jiffies_no_cpu_line _ h]
      rfl
  · rw [parse_proc_stat, if_neg (by decide),
      show parse_stat_jiffies (splitOnChar '\n' ("cpu 1 2 3 4 5 6 7".toList))
        = .ok (some ⟨1, 2, 3, 4, 5, 6, 7, 0⟩) from by decide]
    rfl
  · rw [parse_proc_stat, if_neg (by decide),
      show parse_stat_jiffies (splitOnChar '\n' ("cpu 1 2\ncpu 10 0 0 10 0 0 0 0".toList))
        = .ok (some ⟨10, 0, 0, 10, 0, 0, 0, 0⟩) from by decide]
    rfl
  · rw [parse_proc_stat, if_neg (by decide),
      show parse_stat_jiffies (splitOnChar '\n' ("cpu 1 2 3 4 5 6 7 8 99 98".toList))
        = .ok (some ⟨1, 2, 3, 4, 5, 6, 7, 8⟩) from by decide]
    rfl

/-- C9 counterexample: the parser *does* throw — a `"cpu "` line of the
right shape with non-numeric tokens raises ValueError instead of being
skipped — and 7 numeric fields (8 tokens) are accepted, not the claimed
"at least 8 numeric fields". -/
theorem claim_C9_counterexample :
    parse_proc_stat ("cpu a b c d e f g h".toList) = .error ()
    ∧ (Except.error () : Except Unit (Option CpuParsed)) ≠ .ok none
    ∧ parse_proc_stat ("cpu 1 2 3 4 5 6 7".toList)
        = .ok (some (cpuPercentages ⟨1, 2, 3, 4, 5, 6, 7, 0⟩))
    ∧ (pySplitWs ("cpu 1 2 3 4 5 6 7".toList)).length = 8 := by
  refine ⟨by decide, by decide, ?_, by decide⟩
  rw [parse_proc_stat, if_neg (by decide),
    show parse_stat_jiffies (splitOnChar '\n' ("cpu 1 2 3 4 5 6 7".toList))
      = .ok (some ⟨1, 2, 3, 4, 5, 6, 7, 0⟩) from by decide]
  rfl

theorem claim_C9_witness :
    parse_proc_stat ("btime 100\nctxt 5\nintr 9".toList) = .ok none :=
  claim_C9_parse_proc_stat_amended.1 _ (by decide)

end TrickleView
end XAT
